import Mathlib

/-!
Verification of the d3dmesh-to-gltf decoding engine.

This file shallowly embeds the parts of the Rust source relevant to the
frozen claims: the byte-cursor primitives (`byte_reading.rs`), the mesh
and material decoders (`d3dmesh/`), the skeleton decoder and bind-pose
math (`skeleton/mod.rs`), and the BCn block decoder (`d3dtx/bcn_image.rs`).

Modelling conventions:
* A byte stream is a `List Nat` of byte values together with a cursor
  position; parsing is a state-error monad `ParseM` over the cursor.
  The data itself is never mutated by the source, so it is a read-only
  context.
* Rust `f32` values are modelled by the exact rationals they denote: an
  IEEE-754 binary32 bit pattern read from the stream is mapped to its
  exact rational value (non-finite patterns, which no claim exercises,
  are mapped to 0).  Where the source computes with `f32` arithmetic and
  the rounding is observable (the format-42 weight decode), every
  operation rounds its exact result to the nearest binary32 value, ties
  to even (`roundF32` below); for computations whose operations at the
  claimed inputs are all exact (the C5 skeleton), exact rational
  arithmetic coincides with `f32` arithmetic and is used directly.
* Rust panics (out-of-bounds indexing, `unwrap` on `None`,
  `unreachable!`) are modelled by the dedicated error `PErr.panicked`,
  or by `Option.none` for pure helper functions, as opposed to the
  `anyhow::Error` returns which are modelled by the other `PErr`
  constructors.
* Machine integers are `Nat` with explicit truncation where the source
  overflow semantics matter.
-/

namespace D3D

/-- Errors of the decoding engine.  `eof` models an `std::io` error from a
read or seek past the available data, `utf8` a `str::from_utf8` failure,
`panicked` a Rust panic (not a returned error), and `unknownValue` the
`anyhow!`-style fatal errors for unhandled dispatch values. -/
inductive PErr where
  | eof
  | utf8
  | panicked
  | unknownValue (msg : String)
deriving DecidableEq, Repr

/-- The parsing monad: given the (immutable) byte data and the current
cursor position, produce an error or a value together with the new
position.  This models a Rust `Read + Seek` cursor over an in-memory
buffer. -/
def ParseM (α : Type) : Type := List Nat → Nat → Except PErr (α × Nat)

namespace ParseM

def pureP (a : α) : ParseM α := fun _ p => .ok (a, p)

def bindP (m : ParseM α) (f : α → ParseM β) : ParseM β := fun d p =>
  match m d p with
  | .ok (a, p') => f a d p'
  | .error e => .error e

instance : Monad ParseM where
  pure := pureP
  bind := bindP

end ParseM

open ParseM

/-- Read a single byte; fails with an I/O error when the cursor is at or
past the end of the data. -/
def readU8 : ParseM Nat := fun d p =>
  match d.get? p with
  | some b => .ok (b, p + 1)
  | none => .error .eof

/-- Read `n` raw bytes, little end first. -/
def readBytes : Nat → ParseM (List Nat)
  | 0 => pure []
  | n + 1 => do
    let b ← readU8
    let rest ← readBytes n
    pure (b :: rest)

/-- Combine a little-endian byte list into an unsigned integer. -/
def lcombine : List Nat → Nat
  | [] => 0
  | b :: rest => b + 256 * lcombine rest

def readU16 : ParseM Nat := do
  let bs ← readBytes 2
  pure (lcombine bs)

def readU32 : ParseM Nat := do
  let bs ← readBytes 4
  pure (lcombine bs)

def readU64 : ParseM Nat := do
  let bs ← readBytes 8
  pure (lcombine bs)

/-- `SeekFrom::Current(delta)`: fails when the resulting position would
be negative. -/
def seekCur (delta : Int) : ParseM Unit := fun _ p =>
  if 0 ≤ (p : Int) + delta then .ok ((), ((p : Int) + delta).toNat)
  else .error .eof

/-- `SeekFrom::Start(pos)`. -/
def seekStart (pos : Nat) : ParseM Unit := fun _ _ => .ok ((), pos)

/-- `stream_position()`. -/
def streamPos : ParseM Nat := fun _ p => .ok (p, p)

/-- Run a parser `n` times, collecting results (the ubiquitous
`for _ in 0..n { ... push ... }` loop shape). -/
def readN (n : Nat) (m : ParseM α) : ParseM (List α) :=
  match n with
  | 0 => pure []
  | k + 1 => do
    let a ← m
    let rest ← readN k m
    pure (a :: rest)

/-- Run a parser `n` times for effect only (skip loops). -/
def skipN (n : Nat) (m : ParseM Unit) : ParseM Unit :=
  match n with
  | 0 => pure ()
  | k + 1 => do
    m
    skipN k m

/-! ## IEEE-754 binary32 values as exact rationals

`read_f32::<LittleEndian>()` reads four bytes and reinterprets them as an
IEEE-754 single-precision float.  The exact rational value denoted by a
finite bit pattern is computed here; non-finite patterns (exponent field
255, i.e. NaN and the infinities), which no claim exercises, are mapped
to 0. -/

def f32FromBits (bits : Nat) : ℚ :=
  let sign : Nat := bits / 2 ^ 31 % 2
  let expf : Nat := bits / 2 ^ 23 % 256
  let frac : Nat := bits % 2 ^ 23
  let mag : ℚ :=
    if expf = 0 then
      (frac : ℚ) / 2 ^ 149
    else if expf = 255 then
      0
    else if expf ≥ 150 then
      ((2 ^ 23 + frac : Nat) : ℚ) * 2 ^ (expf - 150)
    else
      ((2 ^ 23 + frac : Nat) : ℚ) / 2 ^ (150 - expf)
  if sign = 1 then -mag else mag

def readF32 : ParseM ℚ := do
  let bs ← readBytes 4
  pure (f32FromBits (lcombine bs))

/-- 3-component vector over exact rationals (models `Vector3<f32>`). -/
structure Vec3 where
  x : ℚ
  y : ℚ
  z : ℚ
deriving DecidableEq, Repr

/-- 4-component vector over exact rationals (models `Vector4<f32>`). -/
structure Vec4 where
  x : ℚ
  y : ℚ
  z : ℚ
  w : ℚ
deriving DecidableEq, Repr

/-- `parse_vec3_f32` from `byte_reading.rs`. -/
def parse_vec3_f32 : ParseM Vec3 := do
  let x ← readF32
  let y ← readF32
  let z ← readF32
  pure ⟨x, y, z⟩

/-- `parse_vec4_f32` from `byte_reading.rs`. -/
def parse_vec4_f32 : ParseM Vec4 := do
  let x ← readF32
  let y ← readF32
  let z ← readF32
  let w ← readF32
  pure ⟨x, y, z, w⟩

/-! ## Packed bone-weight decoding (`d3dmesh/mesh.rs`, weights format 42)

The source reads a 32-bit word per vertex and decodes
```
weight_2 = (((w & 0x3FF) as f32 / 1023.0) / 8.0) + ((w >> 30) as f32 / 8.0)
weight_3 = (((w >> 10) & 0x3FF) as f32 / 1023.0) / 3.0
weight_4 = (((w >> 20) & 0x3FF) as f32 / 1023.0) / 4.0
weight_1 = 1.0 - weight_2 - weight_3 - weight_4
```
in `f32` arithmetic: each conversion, division, addition and subtraction
rounds its exact result to the nearest IEEE-754 binary32 value, ties to
even.  The rounding is modelled exactly: a binary32 value is a pair of an
integer significand and a power-of-two exponent, and `roundF32` rounds an
exact rational `num / den` to the nearest representable value, with the
unit in the last place `2 ^ (e - 23)` for a magnitude in
`[2 ^ e, 2 ^ (e + 1))`, floored at the subnormal grid `2 ^ (-149)`.
Overflow to infinity cannot occur in this decode (every value stays far
below the binary32 maximum) and is not modelled. -/

/-- Fuel-driven `⌊log₂ n⌋`; `natLog2A n n` has enough fuel for any `n`. -/
def natLog2A : Nat → Nat → Nat
  | 0, _ => 0
  | fuel + 1, n => if n < 2 then 0 else natLog2A fuel (n / 2) + 1

/-- `⌊log₂ n⌋` for `n ≥ 1` (and `0` at `0`). -/
def natLog2 (n : Nat) : Nat := natLog2A n n

/-- `⌊log₂ (a / b)⌋` of a positive rational given as a fraction of
naturals. -/
def floorLog2 (a b : Nat) : Int :=
  if b * 2 ^ natLog2 a ≤ a * 2 ^ natLog2 b then
    (natLog2 a : Int) - natLog2 b
  else
    (natLog2 a : Int) - natLog2 b - 1

/-- Round the nonnegative rational `p / q` to the nearest integer, ties
to even. -/
def rnEvenNat (p q : Nat) : Nat :=
  let d := p / q
  let r := p % q
  if 2 * r < q then d
  else if q < 2 * r then d + 1
  else if d % 2 = 0 then d else d + 1

/-- An IEEE-754 binary32 value, exactly: the rational `num * 2 ^ exp`. -/
structure F32 where
  num : Int
  exp : Int
deriving DecidableEq, Repr

/-- The exact rational value denoted by a binary32 value. -/
def F32.toRat (x : F32) : ℚ :=
  if 0 ≤ x.exp then (x.num : ℚ) * 2 ^ x.exp.toNat
  else (x.num : ℚ) / 2 ^ (-x.exp).toNat

/-- Round the positive rational `a / b` to the nearest binary32 value,
ties to even: the result is the nearest integer multiple of the unit in
the last place `2 ^ (⌊log₂ (a / b)⌋ - 23)`, floored at `2 ^ (-149)`. -/
def roundPos (a b : Nat) : F32 :=
  let e : Int := max (floorLog2 a b - 23) (-149)
  if 0 ≤ e then ⟨(rnEvenNat a (b * 2 ^ e.toNat) : Int), e⟩
  else ⟨(rnEvenNat (a * 2 ^ (-e).toNat) b : Int), e⟩

/-- Round the rational `num / den` to the nearest binary32 value. -/
def roundF32 (num : Int) (den : Nat) : F32 :=
  if num < 0 then
    let r := roundPos (-num).toNat den
    ⟨-r.num, r.exp⟩
  else roundPos num.toNat den

/-- `as f32` conversion of an unsigned integer. -/
def f32OfNat (n : Nat) : F32 := roundF32 n 1

/-- Correctly rounded binary32 division by an integer constant (the
decode divides by the exactly representable literals 1023, 8, 3, 4). -/
def F32.divNat (x : F32) (d : Nat) : F32 :=
  if 0 ≤ x.exp then roundF32 (x.num * 2 ^ x.exp.toNat) d
  else roundF32 x.num (d * 2 ^ (-x.exp).toNat)

/-- Correctly rounded binary32 addition. -/
def F32.add (x y : F32) : F32 :=
  let m := min x.exp y.exp
  let n := x.num * 2 ^ (x.exp - m).toNat + y.num * 2 ^ (y.exp - m).toNat
  if 0 ≤ m then roundF32 (n * 2 ^ m.toNat) 1
  else roundF32 n (2 ^ (-m).toNat)

/-- Correctly rounded binary32 subtraction. -/
def F32.sub (x y : F32) : F32 := x.add ⟨-y.num, y.exp⟩

/-- `weight_2` of the format-42 decode
(`Mesh::parse`, `d3dmesh/mesh.rs` lines 331–332). -/
def w42_weight_2 (w : Nat) : F32 :=
  (((f32OfNat (w &&& 0x3FF)).divNat 1023).divNat 8).add
    ((f32OfNat (w >>> 30)).divNat 8)

/-- `weight_3` of the format-42 decode (line 333). -/
def w42_weight_3 (w : Nat) : F32 :=
  ((f32OfNat (w >>> 10 &&& 0x3FF)).divNat 1023).divNat 3

/-- `weight_4` of the format-42 decode (line 334). -/
def w42_weight_4 (w : Nat) : F32 :=
  ((f32OfNat (w >>> 20 &&& 0x3FF)).divNat 1023).divNat 4

/-- `weight_1 = 1.0 - weight_2 - weight_3 - weight_4` (line 335). -/
def w42_weight_1 (w : Nat) : F32 :=
  (((f32OfNat 1).sub (w42_weight_2 w)).sub (w42_weight_3 w)).sub
    (w42_weight_4 w)

/-- The per-word weight decode of weights format 42
(`Mesh::parse`, `d3dmesh/mesh.rs` lines 329–343), as the exact rational
values of the four stored `f32` weights. -/
def decodeWeights42 (w : Nat) : Vec4 :=
  ⟨(w42_weight_1 w).toRat, (w42_weight_2 w).toRat,
    (w42_weight_3 w).toRat, (w42_weight_4 w).toRat⟩

/-! ## Fixed-size strings and `D3DName` (`byte_reading.rs`)

`read_fixed_string` reads `size` raw bytes and validates them as UTF-8
(`std::str::from_utf8`); the string content is modelled as the raw byte
list.  `validUtf8` is the RFC 3629 well-formedness check that
`from_utf8` performs. -/

/-- UTF-8 continuation byte: `0x80 ..= 0xBF`. -/
def isUtf8Cont (b : Nat) : Bool := 0x80 ≤ b && b ≤ 0xBF

/-- RFC 3629 UTF-8 validity of a byte sequence, as enforced by
`std::str::from_utf8`. -/
def validUtf8 : List Nat → Bool
  | [] => true
  | b :: rest =>
    if b ≤ 0x7F then validUtf8 rest
    else if 0xC2 ≤ b && b ≤ 0xDF then
      match rest with
      | c :: rest2 => isUtf8Cont c && validUtf8 rest2
      | [] => false
    else if b = 0xE0 then
      match rest with
      | c :: d :: rest2 =>
        (0xA0 ≤ c && c ≤ 0xBF) && isUtf8Cont d && validUtf8 rest2
      | _ => false
    else if (0xE1 ≤ b && b ≤ 0xEC) || b = 0xEE || b = 0xEF then
      match rest with
      | c :: d :: rest2 => isUtf8Cont c && isUtf8Cont d && validUtf8 rest2
      | _ => false
    else if b = 0xED then
      match rest with
      | c :: d :: rest2 =>
        (0x80 ≤ c && c ≤ 0x9F) && isUtf8Cont d && validUtf8 rest2
      | _ => false
    else if b = 0xF0 then
      match rest with
      | c :: d :: e :: rest2 =>
        (0x90 ≤ c && c ≤ 0xBF) && isUtf8Cont d && isUtf8Cont e && validUtf8 rest2
      | _ => false
    else if 0xF1 ≤ b && b ≤ 0xF3 then
      match rest with
      | c :: d :: e :: rest2 =>
        isUtf8Cont c && isUtf8Cont d && isUtf8Cont e && validUtf8 rest2
      | _ => false
    else if b = 0xF4 then
      match rest with
      | c :: d :: e :: rest2 =>
        (0x80 ≤ c && c ≤ 0x8F) && isUtf8Cont d && isUtf8Cont e && validUtf8 rest2
      | _ => false
    else false

/-- `read_fixed_string` from `byte_reading.rs`: read `size` bytes, then
validate UTF-8 (an invalid sequence is the error `from_utf8` reports,
distinct from a short-read I/O error). -/
def read_fixed_string (size : Nat) : ParseM (List Nat) := fun d p => do
  let (bytes, p') ← readBytes size d p
  if validUtf8 bytes then .ok (bytes, p') else .error .utf8

/-- `D3DName::parse` from `byte_reading.rs`: a 4-byte declared header
length, a 4-byte declared name length; when the name length exceeds the
header length, seek back 4 bytes and use the header length as the name
length instead. -/
def D3DName.parse : ParseM (List Nat) := do
  let header_length ← readU32
  let name_length ← readU32
  if name_length > header_length then
    seekCur (-0x04)
    read_fixed_string header_length
  else
    read_fixed_string name_length

/-- The little-endian 32-bit value stored at offset `p` of `d` (missing
bytes read as 0); the value a successful `readU32` at `p` returns. -/
def u32At (d : List Nat) (p : Nat) : Nat :=
  d.getD p 0 + 256 * d.getD (p + 1) 0 + 65536 * d.getD (p + 2) 0 +
    16777216 * d.getD (p + 3) 0

/-! ## Texture usage records (`d3dmesh/textures.rs`)

The shared checksum reverse-lookup table (`checksum_mapping.rs`) is
modelled as a pure function from a 64-bit hash to an optional plaintext
name.  Logging (`log::warn!`) is modelled by returning the list of
warning lines alongside the decoded value. -/

def ChecksumMap : Type := Nat → Option String

def ChecksumMap.get_mapping (m : ChecksumMap) (hash : Nat) : Option String := m hash

inductive TextureType where
  | Anisotropy | AnisotropyMask | AnisotropyTangent | Bump | ColorMask
  | DamageMask | DecalDiffuse | DecalMask | DecalNormal | Detail
  | DetailGloss | DetailMask | DetailNormal | PackedDetail | Diffuse
  | DiffuseLOD | Emission | Environment | Flow | Gloss
  | Gradient | Grime | Height | Ink | MicrodetailDiffuse
  | MicrodetailNormal | Normal | NormalAlternate | Occlusion | RainFall
  | RainWet | Specular | Tangent | Thickness | TransitionNormal
  | VisibilityMask | WrinkleMask | WrinkleNormal | Unknown
deriving DecidableEq, Repr

inductive TextureMap where
  | Map | MapA | MapB | MapC | Unknown
deriving DecidableEq, Repr

/-- The 64-bit usage-hash classification table of `Texture::parse`. -/
def textureTypeOfHash (type_hash : Nat) : TextureType × TextureMap :=
  match type_hash with
  | 0x9836970882a34f02 => (.Anisotropy, .Map)
  | 0x714d23445936b35d => (.AnisotropyMask, .Map)
  | 0x7501e041ac72a988 => (.AnisotropyTangent, .Map)
  | 0xb8b04ddf1796f446 => (.Bump, .Map)
  | 0x72507eea6ef21aee => (.ColorMask, .Map)
  | 0x2b6c47845f607734 => (.DamageMask, .MapA)
  | 0xec7d65b8a55e2c81 => (.DamageMask, .MapB)
  | 0x36170f97445b6e2e => (.DecalDiffuse, .Map)
  | 0xa1f1257a331854c4 => (.DecalMask, .Map)
  | 0x9cf676c6403c9784 => (.DecalNormal, .Map)
  | 0x4930b970a7fd511f => (.Detail, .Map)
  | 0xdf7e412256e87e74 => (.Detail, .MapB)
  | 0xcb433436edca9efb => (.DetailGloss, .Map)
  | 0xbf468ef480aeeb89 => (.DetailMask, .Map)
  | 0x963ee638083014f1 => (.DetailNormal, .Map)
  | 0x706cf2aa57a7a206 => (.DetailNormal, .Map)
  | 0xd49d30f64a580c6f => (.DetailNormal, .MapA)
  | 0x138c12cab06657da => (.DetailNormal, .MapB)
  | 0x517cf321198c6149 => (.DetailNormal, .MapC)
  | 0xbdcd25f20f4199e3 => (.PackedDetail, .Map)
  | 0x8648fa82d1dbee1a => (.Diffuse, .Map)
  | 0x94a590de74b1f5c1 => (.Diffuse, .MapB)
  | 0xdc6e83a0253f163a => (.DiffuseLOD, .Map)
  | 0xb3022ea7fd418b40 => (.Emission, .Map)
  | 0xbdb4c92a546fb889 => (.Emission, .MapB)
  | 0x13eee65865dfc90f => (.Environment, .Map)
  | 0x257c2a45683f7d2f => (.Environment, .Map)
  | 0x8cadb26098df1108 => (.Flow, .Map)
  | 0x64fba83e34dd3959 => (.Gloss, .Map)
  | 0x2642d6b4c8eccaa9 => (.Gradient, .Map)
  | 0xa334f76c317a0c02 => (.Gradient, .Map)
  | 0x2aa89260d8661f89 => (.Grime, .Map)
  | 0x66cd6e57fa58a246 => (.Height, .Map)
  | 0xff787a61eac8a5b5 => (.Ink, .Map)
  | 0x817afd5302445b8b => (.MicrodetailDiffuse, .Map)
  | 0xcb5b9a7f52168a41 => (.MicrodetailNormal, .Map)
  | 0x1e3f6b9f2550389d => (.Normal, .Map)
  | 0x3f380050afd9f81f => (.Normal, .MapB)
  | 0x436206e68a9e7cca => (.Normal, .MapB)
  | 0x7498a5f1b80ad419 => (.NormalAlternate, .Map)
  | 0xcaaae6432af348c0 => (.Occlusion, .Map)
  | 0x62c4957578189f07 => (.Occlusion, .Map)
  | 0x533f479d08bf0e5e => (.RainFall, .Map)
  | 0x2eba1f4bba7a1543 => (.RainWet, .Map)
  | 0xc8c94155fb7c634b => (.Specular, .Map)
  | 0xd5b57775db361670 => (.Specular, .Map)
  | 0x120621d5fad4c090 => (.Specular, .MapB)
  | 0x37571b60b1f61180 => (.Tangent, .MapB)
  | 0xa45200a222dc2d80 => (.Thickness, .Map)
  | 0x8cf38a5266aaa7a4 => (.TransitionNormal, .Map)
  | 0x87b579ec018fbd4d => (.VisibilityMask, .Map)
  | 0xd7ea35534dbc457d => (.WrinkleMask, .MapA)
  | 0x10fb176fb7821ec8 => (.WrinkleMask, .MapB)
  | 0xf340c5690ce9e059 => (.WrinkleNormal, .Map)
  | 0xa13d14fbb436f23b => (.WrinkleNormal, .Map)
  | _ => (.Unknown, .Unknown)

structure Texture where
  kind : TextureType
  map : TextureMap
  name : String
deriving DecidableEq, Repr

/-- Warning line emitted for an unresolvable texture content hash. -/
def warnUnresolvedTexture : String := "could not resolve texture ID to name"

/-- `Texture::parse`: read the usage hash and the content hash; an
unresolved nonzero content hash warns once and yields an
`Unknown`/empty-name record (a zero hash yields the same record
silently). -/
def Texture.parse (texture_mapping : ChecksumMap) :
    ParseM (Texture × List String) := do
  let type_hash ← readU64
  let tm := textureTypeOfHash type_hash
  let texture_hash ← readU64
  match texture_mapping.get_mapping texture_hash with
  | some name => pure (⟨tm.1, tm.2, name⟩, [])
  | none =>
    if texture_hash ≠ 0 then
      pure (⟨.Unknown, .Unknown, ""⟩, [warnUnresolvedTexture])
    else
      pure (⟨.Unknown, .Unknown, ""⟩, [])

/-! ## Materials (`d3dmesh/materials.rs`) -/

structure Material where
  textures : List Texture
  material_id : Nat
deriving DecidableEq, Repr

/-- The enumerated section hashes handled by `Material::parse`. -/
def knownMaterialHashes : List Nat :=
  [0x0000000000000000, 0xa98f0652295de685, 0xfa21e4c88ae64d31,
   0x254edc517b59bb47, 0x7caceebcd26d075c, 0xded5e1937b1689ef,
   0x264ac2f2544e517c, 0x873c2f1835428297, 0x4e7d91f16f97a3c2,
   0x181afb3ebb8f90ae, 0xfec9ffdf25b43917, 0x8c44858f42cd32d5,
   0xb76e07d6bb899bfe, 0x004f023463d89fb0, 0xbae4cbd77f139a91,
   0x9004c5587575d6c0, 0x394c43af4ff52c94, 0x7bbca244e61f1a07,
   0xc16762f7763d62ab, 0x52a09151f1c3f2c7, 0xe2ba743e952f9338]

/-- Warning line emitted for an unknown material section hash. -/
def warnUnknownMaterialHash : String := "unknown material hash"

/-- Skip `n` 4-byte little-endian reads (discarded hash/float fields). -/
def skipU32s (n : Nat) : ParseM Unit :=
  skipN n (do let _ ← readU32; pure ())

/-- The tag-counted section scan of `Material::parse`
(`materials.rs` lines 44–173).  Carries the accumulated textures and
warning lines; an unrecognized hash appends one warning and stops the
scan (the source's `break`), returning what was decoded so far. -/
def matSectionLoop (tm : ChecksumMap) :
    Nat → List Texture → List String → ParseM (List Texture × List String)
  | 0, textures, warns => pure (textures, warns)
  | n + 1, textures, warns => do
    let mat_section_hash ← readU64
    let mat_section_count ← readU32
    match mat_section_hash with
    | 0x0000000000000000 => matSectionLoop tm n textures warns
    | 0xa98f0652295de685 => matSectionLoop tm n textures warns
    | 0xfa21e4c88ae64d31 => matSectionLoop tm n textures warns
    | 0x254edc517b59bb47 => matSectionLoop tm n textures warns
    | 0x7caceebcd26d075c => matSectionLoop tm n textures warns
    | 0xded5e1937b1689ef => matSectionLoop tm n textures warns
    | 0x264ac2f2544e517c => do
      seekCur (-0x04)
      matSectionLoop tm n textures warns
    | 0x873c2f1835428297 => do
      seekCur 0x08
      matSectionLoop tm n textures warns
    | 0x4e7d91f16f97a3c2 => do
      seekCur (-0x04)
      matSectionLoop tm n textures warns
    | 0x181afb3ebb8f90ae => matSectionLoop tm n textures warns
    | 0xfec9ffdf25b43917 => do
      seekCur (-0x04)
      matSectionLoop tm n textures warns
    | 0x8c44858f42cd32d5 => matSectionLoop tm n textures warns
    | 0xb76e07d6bb899bfe => do
      skipN mat_section_count (skipU32s 6)
      matSectionLoop tm n textures warns
    | 0x004f023463d89fb0 => do
      skipN mat_section_count (skipU32s 4)
      matSectionLoop tm n textures warns
    | 0xbae4cbd77f139a91 => do
      skipN mat_section_count (skipU32s 3)
      matSectionLoop tm n textures warns
    | 0x9004c5587575d6c0 => do
      skipN mat_section_count (do skipU32s 2; let _ ← readU8; pure ())
      matSectionLoop tm n textures warns
    | 0x394c43af4ff52c94 => do
      skipN mat_section_count (skipU32s 5)
      matSectionLoop tm n textures warns
    | 0x7bbca244e61f1a07 => do
      skipN mat_section_count (skipU32s 4)
      matSectionLoop tm n textures warns
    | 0xc16762f7763d62ab => do
      skipN mat_section_count (skipU32s 6)
      matSectionLoop tm n textures warns
    | 0x52a09151f1c3f2c7 => do
      let decoded ← readN mat_section_count (Texture.parse tm)
      matSectionLoop tm n (textures ++ decoded.map (·.1))
        (warns ++ decoded.flatMap (·.2))
    | 0xe2ba743e952f9338 => do
      skipN mat_section_count (skipU32s 6)
      matSectionLoop tm n textures warns
    | _ => pure (textures, warns ++ [warnUnknownMaterialHash])

/-- `Material::parse` (`materials.rs` lines 17–181).  The precomputed
end offset is the position reached after the declared header-size
field, plus that declared size, minus 4; the final seek to it is
unconditional. -/
def Material.parse (tm : ChecksumMap) : ParseM (Material × List String) := do
  let material_id ← readU64
  let _unk_hash_2 ← readU32
  let _unk_hash_1 ← readU32
  let material_header_size ← readU32
  let pos ← streamPos
  let material_section_end := pos + material_header_size - 4
  let _mat_unk_1 ← readU32
  let _mat_unk_2 ← readU32
  let _mat_header_size_b ← readU32
  let mat_unk_3_count ← readU32
  skipN mat_unk_3_count (skipU32s 2)
  let mat_param_count ← readU32
  let tw ← matSectionLoop tm mat_param_count [] []
  seekStart material_section_end
  pure (⟨tw.1, material_id⟩, tw.2)

structure MaterialGroup where
  material_id : Nat
deriving DecidableEq, Repr

/-- `MaterialGroup::parse` (`materials.rs` lines 190–198). -/
def MaterialGroup.parse : ParseM MaterialGroup := do
  let _unknown ← readU32
  let material_id ← readU64
  seekCur 0x40
  pure ⟨material_id⟩

/-! ## Polygon infos and the material-index fixup (`d3dmesh/mod.rs`) -/

structure PolygonInfo where
  vertex_start : Nat
  vertex_min : Nat
  vertex_max : Nat
  polygon_start : Nat
  polygon_count : Nat
  face_point_count : Nat
  mat_num : Nat
  lod_level : Nat
deriving DecidableEq, Repr

/-- The inner accumulation of
`get_material_index_for_material_group_index`
(`materials.iter().enumerate()` with index `i` and accumulator
`material_index`): record the index of each material whose identity
matches — later matches overwrite earlier ones. -/
def material_index_fold_aux (material_id : Nat) :
    List Material → Nat → Option Nat → Option Nat
  | [], _, material_index => material_index
  | m :: rest, i, material_index =>
    material_index_fold_aux material_id rest (i + 1)
      (if m.material_id = material_id then some i else material_index)

/-- The full scan of `get_material_index_for_material_group_index`:
start at index 0 with no match recorded. -/
def material_index_fold (materials : List Material) (material_id : Nat) :
    Option Nat :=
  material_index_fold_aux material_id materials 0 none

/-- The closure of `fix_material_index`: index into the material groups
(an out-of-bounds material-group index is a Rust panic, modelled as
`none` at the outer layer) and scan the materials for the identity. -/
def get_material_index_for_material_group_index
    (material_groups : List MaterialGroup) (materials : List Material)
    (material_group_index : Nat) : Option (Option Nat) :=
  match material_groups.get? material_group_index with
  | none => none
  | some g => some (material_index_fold materials g.material_id)

/-- `fix_material_index` (`d3dmesh/mod.rs` lines 265–289): rewrite each
polygon's material-group index to the resolved material index; a
missing reference is the \"could not determine the material index\"
error, an out-of-bounds group index is a panic. -/
def fix_material_index (material_groups : List MaterialGroup)
    (materials : List Material) :
    List PolygonInfo → Except PErr (List PolygonInfo)
  | [] => .ok []
  | polygon :: rest =>
    match get_material_index_for_material_group_index material_groups
        materials polygon.mat_num with
    | none => .error .panicked
    | some none =>
      .error (.unknownValue "could not determine the material index due to missing material group reference")
    | some (some new_index) => do
      let rest' ← fix_material_index material_groups materials rest
      .ok ({ polygon with mat_num := new_index } :: rest')

/-- Spec-side notion for claim C1: the index of the FIRST material in
the list carrying the given identity (the spec's \"first resolved\"
wording), for comparison against `material_index_fold`. -/
def firstIndexWithId (materials : List Material) (material_id : Nat) :
    Option Nat :=
  materials.enum.findSome? fun im =>
    if im.2.material_id = material_id then some im.1 else none

/-! ## Vertex/mesh decoder (`d3dmesh/mesh.rs`)

`Mesh::parse` is embedded compositionally: the layout-table phase
(`Mesh.parse`) computes a `LayoutInfo` and the face-buffer counts, and
the remainder of the function is `Mesh.parseWithLayout`; the composition
of the two is the source function.  The post-decode `normalize()` of
normals (division by the Euclidean norm, an irrational operation) is not
modelled — no claim depends on normal values, only on their number. -/

inductive ModelOrientation where
  | Q | X | Y | Z
deriving DecidableEq, Repr

structure ModelClamps where
  mesh_multiplier : Vec3
  mesh_min : Vec3
  orientation : ModelOrientation
deriving DecidableEq, Repr

structure UV where
  u : ℚ
  v : ℚ
deriving DecidableEq, Repr

structure UVClamps where
  multiplier : UV
  start : UV
deriving DecidableEq, Repr

/-- `UVClamps::default()`. -/
def UVClamps.default : UVClamps := ⟨⟨1, 1⟩, ⟨0, 0⟩⟩

structure BoneInfo where
  bone_1 : Nat
  bone_2 : Nat
  bone_3 : Nat
  bone_4 : Nat
deriving DecidableEq, Repr

def BoneInfo.parse : ParseM BoneInfo := do
  let bone_1 ← readU8
  let bone_2 ← readU8
  let bone_3 ← readU8
  let bone_4 ← readU8
  pure ⟨bone_1, bone_2, bone_3, bone_4⟩

structure Face where
  a : Nat
  b : Nat
  c : Nat
deriving DecidableEq, Repr

def Face.parse : ParseM Face := do
  let a ← readU16
  let b ← readU16
  let c ← readU16
  pure ⟨a, b, c⟩

/-- A per-vertex quadruple of resolved 64-bit bone identities. -/
abbrev BoneReference : Type := Nat × Nat × Nat × Nat

/-- Two's-complement value of an `i8` byte. -/
def i8val (b : Nat) : Int := if b < 128 then (b : Int) else (b : Int) - 256

/-- Two's-complement value of an `i16` word. -/
def i16val (w : Nat) : Int := if w < 32768 then (w : Int) else (w : Int) - 65536

def readI8 : ParseM Int := do
  let b ← readU8
  pure (i8val b)

def readI16 : ParseM Int := do
  let w ← readU16
  pure (i16val w)

/-- `parse_position_with_bones`: a float triple, a bone-info quadruple,
and an 8-byte skip. -/
def parse_position_with_bones : ParseM (Vec3 × BoneInfo) := do
  let vector ← parse_vec3_f32
  let bone_info ← BoneInfo.parse
  seekCur 0x08
  pure (vector, bone_info)

/-- `parse_normal_from_i8`, up to the final re-normalization (see the
section comment): the dequantized `i8`-triple, fourth byte discarded. -/
def parse_normal_from_i8 : ParseM Vec3 := do
  let x ← readI8
  let y ← readI8
  let z ← readI8
  let _q ← readI8
  pure ⟨(x : ℚ) / 127, (y : ℚ) / 127, (z : ℚ) / 127⟩

/-- `parse_normal_from_i16`, up to the final re-normalization. -/
def parse_normal_from_i16 : ParseM Vec3 := do
  let x ← readI16
  let y ← readI16
  let z ← readI16
  let _q ← readI16
  pure ⟨(x : ℚ) / 32767, (y : ℚ) / 32767, (z : ℚ) / 32767⟩

def UV.parse_f32 : ParseM UV := do
  let u ← readF32
  let v ← readF32
  pure ⟨u, v⟩

def UV.parse_i16 (uv_clamps : UVClamps) : ParseM UV := do
  let u ← readI16
  let v ← readI16
  pure ⟨((u : ℚ) / 32767) * uv_clamps.multiplier.u + uv_clamps.start.u,
        ((v : ℚ) / 32767) * uv_clamps.multiplier.v + uv_clamps.start.v⟩

def UV.parse_u16 (uv_clamps : UVClamps) : ParseM UV := do
  let u ← readU16
  let v ← readU16
  pure ⟨((u : ℚ) / 65535) * uv_clamps.multiplier.u + uv_clamps.start.u,
        ((v : ℚ) / 65535) * uv_clamps.multiplier.v + uv_clamps.start.v⟩

/-- `parse_uv_list`: `vert_count` UV records in the given format. -/
def parse_uv_list (vert_count uv_format : Nat)
    (uv_clamps : Option UVClamps) : ParseM (List UV) :=
  match uv_format with
  | 3 => readN vert_count UV.parse_f32
  | 24 => readN vert_count (UV.parse_i16 (uv_clamps.getD UVClamps.default))
  | 25 => readN vert_count (UV.parse_u16 (uv_clamps.getD UVClamps.default))
  | _ => fun _ _ => .error (.unknownValue "unknown uv format")

/-- The per-channel presence/format information accumulated from the
layout table at the start of `Mesh::parse` (the `has_*`/`*_format`
mutable locals, lines 31–58; all zero-initialized). -/
structure LayoutInfo where
  has_vertex : Nat := 0
  vertex_format : Nat := 0
  has_weights : Nat := 0
  weights_format : Nat := 0
  has_bones : Nat := 0
  bones_format : Nat := 0
  has_normals : Nat := 0
  normals_format : Nat := 0
  has_tangents : Nat := 0
  tangents_format : Nat := 0
  has_binormals : Nat := 0
  binormals_format : Nat := 0
  has_uv5 : Nat := 0
  uv5_format : Nat := 0
  has_uv6 : Nat := 0
  uv6_format : Nat := 0
  has_colors : Nat := 0
  colors_format : Nat := 0
  has_colors2 : Nat := 0
  colors2_format : Nat := 0
  has_uv1 : Nat := 0
  uv1_format : Nat := 0
  has_uv2 : Nat := 0
  uv2_format : Nat := 0
  has_uv3 : Nat := 0
  uv3_format : Nat := 0
  has_uv4 : Nat := 0
  uv4_format : Nat := 0
deriving DecidableEq, Repr

def initLayout : LayoutInfo := {}

/-- One layout-table entry dispatch (`match (vert_type, vert_layer)`,
lines 81–145); an unlisted pair is the fatal unknown-layout error. -/
def applyLayoutEntry (li : LayoutInfo)
    (vert_type vert_format vert_layer vert_buff_num : Nat) :
    Except PErr LayoutInfo :=
  match vert_type, vert_layer with
  | 1, 1 => .ok { li with has_vertex := vert_buff_num, vertex_format := vert_format }
  | 4, 1 => .ok { li with has_weights := vert_buff_num, weights_format := vert_format }
  | 5, 1 => .ok { li with has_bones := vert_buff_num, bones_format := vert_format }
  | 2, 1 => .ok { li with has_normals := vert_buff_num, normals_format := vert_format }
  | 3, 1 => .ok { li with has_tangents := vert_buff_num, tangents_format := vert_format }
  | 2, 2 => .ok { li with has_binormals := vert_buff_num, binormals_format := vert_format }
  | 7, 5 => .ok { li with has_uv5 := vert_buff_num, uv5_format := vert_format }
  | 7, 6 => .ok { li with has_uv6 := vert_buff_num, uv6_format := vert_format }
  | 6, 1 => .ok { li with has_colors := vert_buff_num, colors_format := vert_format }
  | 6, 2 => .ok { li with has_colors2 := vert_buff_num, colors2_format := vert_format }
  | 7, 1 => .ok { li with has_uv1 := vert_buff_num, uv1_format := vert_format }
  | 7, 2 => .ok { li with has_uv2 := vert_buff_num, uv2_format := vert_format }
  | 7, 3 => .ok { li with has_uv3 := vert_buff_num, uv3_format := vert_format }
  | 7, 4 => .ok { li with has_uv4 := vert_buff_num, uv4_format := vert_format }
  | _, _ => .error (.unknownValue "unknown vertex buffer combination")

/-- One layout-table record: five 4-byte fields, each incremented by one
on read; the offset field is discarded. -/
def readLayoutEntry : ParseM (Nat × Nat × Nat × Nat) := do
  let vert_type ← readU32
  let vert_format ← readU32
  let vert_layer ← readU32
  let vert_buff_num ← readU32
  let _vert_offset ← readU32
  pure (vert_type + 1, vert_format + 1, vert_layer + 1, vert_buff_num + 1)

/-- The layout-table loop (`for _ in 0..buffer_count_1`). -/
def readLayoutTable : Nat → LayoutInfo → ParseM LayoutInfo
  | 0, li => pure li
  | n + 1, li => do
    let e ← readLayoutEntry
    match applyLayoutEntry li e.1 e.2.1 e.2.2.1 e.2.2.2 with
    | .ok li' => readLayoutTable n li'
    | .error err => fun _ _ => .error err

/-- The face-buffer info loop (`for i in 0..face_buffer_count`): per
entry a 12-byte skip, a count and a length; index 0 and 1 feed the two
face-point counts, any further index is `unreachable!` (a panic). -/
def readFaceBufferInfos : Nat → ParseM (Nat × Nat)
  | 0 => pure (0, 0)
  | 1 => do
    seekCur 12
    let c ← readU32
    let _l ← readU32
    pure (c, 0)
  | 2 => do
    seekCur 12
    let c1 ← readU32
    let _l1 ← readU32
    seekCur 12
    let c2 ← readU32
    let _l2 ← readU32
    pure (c1, c2)
  | _ => fun _ _ => .error .panicked

/-- The pre-pass on the global vertex flag (`match vert_flags`,
`mesh.rs` lines 191–207): the sentinel `0x31` records the cursor, seeks
to the secondary vertex start, reads `vert_count` position-with-bones
records, and restores the cursor; the plain enumerated flags read
nothing; anything else is the fatal unknown-flags error. -/
def meshPrePass (vert_start vert_flags vert_count : Nat) :
    ParseM (List (Vec3 × BoneInfo)) :=
  match vert_flags with
  | 0x00 | 0x01 | 0x03 | 0x05 | 0x09 | 0x21 => pure []
  | 0x31 => do
    let vert_start_b ← streamPos
    seekStart vert_start
    let recs ← readN vert_count parse_position_with_bones
    seekStart vert_start_b
    pure recs
  | _ => fun _ _ => .error (.unknownValue "unknown MeshFlags combination")

/-- Position format 27: three 16-bit normalized integers scaled by the
model clamps, plus a discarded fourth word. -/
def parsePosition27 (mc : ModelClamps) : ParseM Vec3 := do
  let x_u16 ← readU16
  let y_u16 ← readU16
  let z_u16 ← readU16
  let _vq_u16 ← readU16
  pure ⟨((x_u16 : ℚ) / 65535) * mc.mesh_multiplier.x + mc.mesh_min.x,
        ((y_u16 : ℚ) / 65535) * mc.mesh_multiplier.y + mc.mesh_min.y,
        ((z_u16 : ℚ) / 65535) * mc.mesh_multiplier.z + mc.mesh_min.z⟩

/-- Position format 42: a packed 32-bit word of three 10-bit fields,
with the top 2 bits applied only to the model's dominant axis with a
`/4` correction. -/
def parsePosition42 (mc : ModelClamps) : ParseM Vec3 := do
  let pos_vars ← readU32
  let x0 : ℚ := ((pos_vars &&& 0x3FF : Nat) : ℚ) / 1023
  let y0 : ℚ := ((pos_vars >>> 10 &&& 0x3FF : Nat) : ℚ) / 1023
  let z0 : ℚ := ((pos_vars >>> 20 &&& 0x3FF : Nat) : ℚ) / 1023
  let hi : ℚ := ((pos_vars >>> 30 : Nat) : ℚ) / 4
  let xyz : ℚ × ℚ × ℚ :=
    match mc.orientation with
    | .X => (x0 / 4 + hi, y0, z0)
    | .Y => (x0, y0 / 4 + hi, z0)
    | .Z => (x0, y0, z0 / 4 + hi)
    | .Q => (x0, y0, z0)
  pure ⟨xyz.1 * mc.mesh_multiplier.x + mc.mesh_min.x,
        xyz.2.1 * mc.mesh_multiplier.y + mc.mesh_min.y,
        xyz.2.2 * mc.mesh_multiplier.z + mc.mesh_min.z⟩

/-- The `if has_vertex > 0` position block (lines 209–279). -/
def meshReadPositions (has_vertex vertex_format vert_count : Nat)
    (model_clamps : ModelClamps) : ParseM (List Vec3) :=
  if has_vertex > 0 then
    match vertex_format with
    | 4 => readN vert_count parse_vec3_f32
    | 27 => readN vert_count (parsePosition27 model_clamps)
    | 42 => readN vert_count (parsePosition42 model_clamps)
    | _ => fun _ _ => .error (.unknownValue "unknown position format")
  else pure []

/-- Weights format 27: four 16-bit normalized values. -/
def parseWeight27 : ParseM Vec4 := do
  let w1 ← readU16
  let w2 ← readU16
  let w3 ← readU16
  let w4 ← readU16
  pure ⟨(w1 : ℚ) / 65535, (w2 : ℚ) / 65535, (w3 : ℚ) / 65535, (w4 : ℚ) / 65535⟩

/-- The `if has_weights > 0` weight block (lines 281–349). -/
def meshReadWeights (has_weights weights_format vert_count : Nat) :
    ParseM (List Vec4) :=
  if has_weights > 0 then
    match weights_format with
    | 27 => readN vert_count parseWeight27
    | 42 => readN vert_count (do
        let weight_vars ← readU32
        pure (decodeWeights42 weight_vars))
    | _ => fun _ _ => .error (.unknownValue "unknown weights format")
  else pure []

/-- The `if has_bones > 0` bone-slot block (lines 351–366). -/
def meshReadBones (has_bones bones_format vert_count : Nat) :
    ParseM (List BoneInfo) :=
  if has_bones > 0 then
    match bones_format with
    | 33 => readN vert_count BoneInfo.parse
    | _ => fun _ _ => .error (.unknownValue "unknown bones format")
  else pure []

/-- The `if has_normals > 0` normal block (lines 368–393). -/
def meshReadNormals (has_normals normals_format vert_count : Nat) :
    ParseM (List Vec3) :=
  if has_normals > 0 then
    match normals_format with
    | 38 => readN vert_count parse_normal_from_i8
    | 26 => readN vert_count parse_normal_from_i16
    | _ => fun _ _ => .error (.unknownValue "unknown normals format")
  else pure []

/-- The tangent block (lines 395–409): four `i8` reads per vertex,
values discarded. -/
def meshReadTangents (has_tangents tangents_format vert_count : Nat) :
    ParseM Unit :=
  if has_tangents > 0 then
    match tangents_format with
    | 38 => skipN vert_count (do
        let _1 ← readI8
        let _2 ← readI8
        let _3 ← readI8
        let _4 ← readI8
        pure ())
    | _ => fun _ _ => .error (.unknownValue "unknown tangents format")
  else pure ()

/-- The binormal block (lines 411–425), identical in shape to tangents. -/
def meshReadBinormals (has_binormals binormals_format vert_count : Nat) :
    ParseM Unit :=
  if has_binormals > 0 then
    match binormals_format with
    | 38 => skipN vert_count (do
        let _1 ← readI8
        let _2 ← readI8
        let _3 ← readI8
        let _4 ← readI8
        pure ())
    | _ => fun _ _ => .error (.unknownValue "unknown binormals format")
  else pure ()

/-- A color block (lines 449–477): four bytes per vertex, discarded. -/
def meshReadColors (has_colors colors_format vert_count : Nat) :
    ParseM Unit :=
  if has_colors > 0 then
    match colors_format with
    | 33 | 39 => skipN vert_count (do
        let _r ← readU8
        let _g ← readU8
        let _b ← readU8
        let _a ← readU8
        pure ())
    | _ => fun _ _ => .error (.unknownValue "unknown colors format")
  else pure ()

/-- A guarded UV-layer read (`if has_uvN > 0 { ... Some(...) }`). -/
def readOptUV (has_uv uv_format vert_count : Nat)
    (uv_clamps : Option UVClamps) : ParseM (Option (List UV)) :=
  if has_uv > 0 then do
    let l ← parse_uv_list vert_count uv_format uv_clamps
    pure (some l)
  else pure none

/-- `if let Some(l) = o { if l.len() > 0 { uv.push(l) } }`. -/
def appendUV (uv : List (List UV)) (o : Option (List UV)) : List (List UV) :=
  match o with
  | some l => if l.length > 0 then uv ++ [l] else uv
  | none => uv

/-- The bone-slot translation at the end of `Mesh::parse`
(lines 541–549): each decoded 8-bit slot indexes the file-level bone-ID
table without a bounds check; an out-of-bounds slot is a Rust panic,
modelled as `none`. -/
def translateBones (bone_ids : List Nat) :
    List BoneInfo → Option (List BoneReference)
  | [] => some []
  | bone_info :: rest => do
    let b1 ← bone_ids.get? bone_info.bone_1
    let b2 ← bone_ids.get? bone_info.bone_2
    let b3 ← bone_ids.get? bone_info.bone_3
    let b4 ← bone_ids.get? bone_info.bone_4
    let rest' ← translateBones bone_ids rest
    some (((b1, b2, b3, b4) : BoneReference) :: rest')

structure Mesh where
  positions : List Vec3
  normals : List Vec3
  faces : List Face
  uv : List (List UV)
  bones : List BoneReference
  weights : List Vec4

/-- The remainder of `Mesh::parse` after the layout table and buffer
info have been read (from `input.seek(SeekFrom::Start(face_data_start))`
at line 170 to the end): face buffers, the flag pre-pass, the per-channel
passes in source order, UV-layer assembly and bone translation. -/
def Mesh.parseWithLayout (li : LayoutInfo)
    (face_buffer_count fpcA fpcB : Nat)
    (face_data_start vert_start vert_flags vert_count : Nat)
    (model_clamps : ModelClamps) (uv_clamps : List (Option UVClamps))
    (bone_ids : List Nat) : ParseM Mesh := do
  seekStart face_data_start
  let face_array_a ← readN (fpcA / 3) Face.parse
  let faces := face_array_a
  if face_buffer_count = 2 then do
    let _face_array_b ← readN (fpcB / 3) Face.parse
    pure ()
  else pure ()
  let pre ← meshPrePass vert_start vert_flags vert_count
  let positions_main ← meshReadPositions li.has_vertex li.vertex_format
    vert_count model_clamps
  let positions := pre.map (·.1) ++ positions_main
  let weights ← meshReadWeights li.has_weights li.weights_format vert_count
  let bones_main ← meshReadBones li.has_bones li.bones_format vert_count
  let bones_infos := pre.map (·.2) ++ bones_main
  let normals ← meshReadNormals li.has_normals li.normals_format vert_count
  meshReadTangents li.has_tangents li.tangents_format vert_count
  meshReadBinormals li.has_binormals li.binormals_format vert_count
  let uv5o ← readOptUV li.has_uv5 li.uv5_format vert_count (uv_clamps.getD 4 none)
  let uv6o ← readOptUV li.has_uv6 li.uv6_format vert_count (uv_clamps.getD 5 none)
  meshReadColors li.has_colors li.colors_format vert_count
  meshReadColors li.has_colors2 li.colors2_format vert_count
  let uv1o ← readOptUV li.has_uv1 li.uv1_format vert_count (uv_clamps.getD 0 none)
  let uv2o ← readOptUV li.has_uv2 li.uv2_format vert_count (uv_clamps.getD 1 none)
  let uv3o ← readOptUV li.has_uv3 li.uv3_format vert_count (uv_clamps.getD 2 none)
  let uv4o ← readOptUV li.has_uv4 li.uv4_format vert_count (uv_clamps.getD 3 none)
  let uv := appendUV (appendUV (appendUV (appendUV (appendUV (appendUV []
    uv1o) uv2o) uv3o) uv4o) uv5o) uv6o
  match translateBones bone_ids bones_infos with
  | some bones => pure ⟨positions, normals, faces, uv, bones, weights⟩
  | none => fun _ _ => .error .panicked

/-- `Mesh::parse` (`mesh.rs` lines 20–559): the header/layout phase
followed by `Mesh.parseWithLayout`. -/
def Mesh.parse (face_data_start vert_start vert_flags vert_count : Nat)
    (model_clamps : ModelClamps) (uv_clamps : List (Option UVClamps))
    (bone_ids : List Nat) : ParseM Mesh := do
  seekCur 0x08
  let face_buffer_count ← readU32
  let buffer_count_1 ← readU32
  let buffer_count_2 ← readU32
  let li ← readLayoutTable buffer_count_1 initLayout
  let fpcs ← readFaceBufferInfos face_buffer_count
  skipN buffer_count_2 (seekCur 0x14)
  Mesh.parseWithLayout li face_buffer_count fpcs.1 fpcs.2 face_data_start
    vert_start vert_flags vert_count model_clamps uv_clamps bone_ids

/-! ## Skeleton decoder and bind-pose computation (`skeleton/mod.rs`)

The 3×3 and 4×4 matrices are cgmath-style column-major structures over
exact rationals.  `invertM4` models cgmath's `SquareMatrix::invert`
(`inverse_transform`): `None` when the determinant is zero, otherwise
the transposed-cofactor (adjugate) matrix divided by the determinant —
the unique inverse, which any exact inversion algorithm computes. -/

/-- Column-major 3×3 matrix: `x`, `y`, `z` are the columns. -/
structure M3 where
  x : Vec3
  y : Vec3
  z : Vec3
deriving DecidableEq, Repr

/-- Column-major 4×4 matrix: `x`, `y`, `z`, `w` are the columns. -/
structure M4 where
  x : Vec4
  y : Vec4
  z : Vec4
  w : Vec4
deriving DecidableEq, Repr

def M4.identity : M4 :=
  ⟨⟨1, 0, 0, 0⟩, ⟨0, 1, 0, 0⟩, ⟨0, 0, 1, 0⟩, ⟨0, 0, 0, 1⟩⟩

/-- cgmath `From<Quaternion> for Matrix3`; the quaternion is the parsed
`Vector4` under cgmath's `[x, y, z, s]` array layout, so the scalar part
is the `w` component. -/
def quatToMatrix3 (q : Vec4) : M3 :=
  let x2 := q.x + q.x
  let y2 := q.y + q.y
  let z2 := q.z + q.z
  let xx2 := x2 * q.x
  let xy2 := x2 * q.y
  let xz2 := x2 * q.z
  let yy2 := y2 * q.y
  let yz2 := y2 * q.z
  let zz2 := z2 * q.z
  let sy2 := y2 * q.w
  let sz2 := z2 * q.w
  let sx2 := x2 * q.w
  ⟨⟨1 - yy2 - zz2, xy2 + sz2, xz2 - sy2⟩,
   ⟨xy2 - sz2, 1 - xx2 - zz2, yz2 + sx2⟩,
   ⟨xz2 + sy2, yz2 - sx2, 1 - xx2 - yy2⟩⟩

/-- The 3×3 rotation placed into a 4×4 matrix (`Matrix4::from_cols`,
`skeleton/mod.rs` lines 116–121). -/
def rotationToM4 (r : M3) : M4 :=
  ⟨⟨r.x.x, r.x.y, r.x.z, 0⟩,
   ⟨r.y.x, r.y.y, r.y.z, 0⟩,
   ⟨r.z.x, r.z.y, r.z.z, 0⟩,
   ⟨0, 0, 0, 1⟩⟩

/-- cgmath `Matrix4::from_translation`. -/
def fromTranslation (t : Vec3) : M4 :=
  ⟨⟨1, 0, 0, 0⟩, ⟨0, 1, 0, 0⟩, ⟨0, 0, 1, 0⟩, ⟨t.x, t.y, t.z, 1⟩⟩

/-- Matrix-vector product (columns weighted by the vector components). -/
def M4.mulVec (m : M4) (v : Vec4) : Vec4 :=
  ⟨v.x * m.x.x + v.y * m.y.x + v.z * m.z.x + v.w * m.w.x,
   v.x * m.x.y + v.y * m.y.y + v.z * m.z.y + v.w * m.w.y,
   v.x * m.x.z + v.y * m.y.z + v.z * m.z.z + v.w * m.w.z,
   v.x * m.x.w + v.y * m.y.w + v.z * m.z.w + v.w * m.w.w⟩

/-- Matrix product. -/
def mulM4 (a b : M4) : M4 :=
  ⟨a.mulVec b.x, a.mulVec b.y, a.mulVec b.z, a.mulVec b.w⟩

/-- Determinant of a 3×3 matrix given row-major. -/
def det3 (a b c d e f g h i : ℚ) : ℚ :=
  a * (e * i - f * h) - b * (d * i - f * g) + c * (d * h - e * g)

/-- `SquareMatrix::invert` for 4×4 matrices: `None` on zero determinant,
otherwise the adjugate over the determinant. -/
def invertM4 (m : M4) : Option M4 :=
  let m00 := m.x.x
  let m01 := m.y.x
  let m02 := m.z.x
  let m03 := m.w.x
  let m10 := m.x.y
  let m11 := m.y.y
  let m12 := m.z.y
  let m13 := m.w.y
  let m20 := m.x.z
  let m21 := m.y.z
  let m22 := m.z.z
  let m23 := m.w.z
  let m30 := m.x.w
  let m31 := m.y.w
  let m32 := m.z.w
  let m33 := m.w.w
  let cof00 := det3 m11 m12 m13 m21 m22 m23 m31 m32 m33
  let cof01 := -det3 m10 m12 m13 m20 m22 m23 m30 m32 m33
  let cof02 := det3 m10 m11 m13 m20 m21 m23 m30 m31 m33
  let cof03 := -det3 m10 m11 m12 m20 m21 m22 m30 m31 m32
  let cof10 := -det3 m01 m02 m03 m21 m22 m23 m31 m32 m33
  let cof11 := det3 m00 m02 m03 m20 m22 m23 m30 m32 m33
  let cof12 := -det3 m00 m01 m03 m20 m21 m23 m30 m31 m33
  let cof13 := det3 m00 m01 m02 m20 m21 m22 m30 m31 m32
  let cof20 := det3 m01 m02 m03 m11 m12 m13 m31 m32 m33
  let cof21 := -det3 m00 m02 m03 m10 m12 m13 m30 m32 m33
  let cof22 := det3 m00 m01 m03 m10 m11 m13 m30 m31 m33
  let cof23 := -det3 m00 m01 m02 m10 m11 m12 m30 m31 m32
  let cof30 := -det3 m01 m02 m03 m11 m12 m13 m21 m22 m23
  let cof31 := det3 m00 m02 m03 m10 m12 m13 m20 m22 m23
  let cof32 := -det3 m00 m01 m03 m10 m11 m13 m20 m21 m23
  let cof33 := det3 m00 m01 m02 m10 m11 m12 m20 m21 m22
  let det := m00 * cof00 + m01 * cof01 + m02 * cof02 + m03 * cof03
  if det = 0 then none
  else some
    ⟨⟨cof00 / det, cof01 / det, cof02 / det, cof03 / det⟩,
     ⟨cof10 / det, cof11 / det, cof12 / det, cof13 / det⟩,
     ⟨cof20 / det, cof21 / det, cof22 / det, cof23 / det⟩,
     ⟨cof30 / det, cof31 / det, cof32 / det, cof33 / det⟩⟩

structure Joint where
  parent : Option Nat
  translation : Vec3
  rotation : Vec4
  name : String
  id : Nat
deriving DecidableEq, Repr

/-- `format!(\"{:016x}\", n)`: 16-character zero-padded lowercase hex. -/
def hexPad16 (n : Nat) : String :=
  let ds := Nat.toDigits 16 n
  String.mk (List.replicate (16 - ds.length) '0' ++ ds)

/-- `Joint::parse` (`skeleton/mod.rs` lines 58–104): the raw 32-bit
parent index means \"no parent\" only above 1,000,000; any value at or
below that threshold is recorded as a parent with no bounds check. -/
def Joint.parse (checksum_mapping : ChecksumMap) : ParseM Joint := do
  let bone_checksum ← readU64
  let name := (checksum_mapping.get_mapping bone_checksum).getD
    (hexPad16 bone_checksum)
  let _bone_parent_checksum ← readU64
  let bone_parent ← readU32
  let parent := if bone_parent > 1000000 then none else some bone_parent
  seekCur 0x0C
  let translation ← parse_vec3_f32
  let rotation ← parse_vec4_f32
  seekCur 0x48
  let amount ← readU32
  skipN amount (seekCur 0x0C)
  seekCur 0x04
  let amount2 ← readU32
  skipN amount2 (seekCur 0x0C)
  seekCur 0x20
  pure ⟨parent, translation, rotation, name, bone_checksum⟩

/-- The TRS matrix of a joint: translation times homogeneous rotation
(`skeleton/mod.rs` lines 112–122). -/
def trsMatrix (joint : Joint) : M4 :=
  mulM4 (fromTranslation joint.translation)
    (rotationToM4 (quatToMatrix3 joint.rotation))

/-- The bottom-right snap (lines 127–132): set `w.w` to exactly 1 when
within `0.0001` of it. -/
def snapW (m : M4) : M4 :=
  if |m.w.w - 1| < 1 / 10000 then { m with w := { m.w with w := 1 } } else m

/-- `inverse_bind_matrix_for_joint` (lines 109–139), with explicit
recursion fuel: the source recursion is unbounded, and for an acyclic
parent graph its depth is at most the joint count, so any fuel above
that reproduces it; exhausted fuel (a parent cycle, divergence in the
source) and the two panics (out-of-bounds joint index, `unwrap` of a
failed inversion) are `none`. -/
def inverse_bind_matrix_for_joint (joints : List Joint) :
    Nat → Nat → Option M4
  | 0, _ => none
  | fuel + 1, index => do
    let joint ← joints.get? index
    let matrix := trsMatrix joint
    let inv ← invertM4 matrix
    let matrix := snapW inv
    match joint.parent with
    | some parent => do
      let pm ← inverse_bind_matrix_for_joint joints fuel parent
      pure (mulM4 matrix pm)
    | none => pure matrix

/-- `calculate_inverse_bind_matrices` (lines 108–146). -/
def calculate_inverse_bind_matrices (joints : List Joint) :
    Option (List M4) :=
  (List.range joints.length).mapM
    (inverse_bind_matrix_for_joint joints (joints.length + 1))

/-! ## BCn/DXT block decoder (`d3dtx/bcn_image.rs`)

The block decoders write each decoded pixel into a destination slice at
a per-pixel offset; they are modelled as functions from the encoded
block bytes to the pixel value at index `i` (0–15, row-major within the
4×4 block).  All the `u16` intermediate arithmetic stays below 2¹⁶ and
every `as u8` cast is applied to a value at most 255, so plain `Nat`
arithmetic is exact. -/

abbrev Rgb : Type := Nat × Nat × Nat

/-- `enc565_decode`: expand a packed 5-6-5 16-bit color to 8-bit
channels, preserving 0 and the maximum exactly. -/
def enc565_decode (value : Nat) : Rgb :=
  let red := value >>> 11 &&& 0x1F
  let green := value >>> 5 &&& 0x3F
  let blue := value &&& 0x1F
  (red * 0xFF / 0x1F, green * 0xFF / 0x3F, blue * 0xFF / 0x1F)

/-- `alpha_table_dxt5`: the 8-entry DXT5 alpha ramp.  For
`alpha0 > alpha1` entries 2–7 are `((8-i)*alpha0 + (i-1)*alpha1) / 7`;
otherwise entries 2–5 are `((6-i)*alpha0 + (i-1)*alpha1) / 5` and the
initial sentinels 0 and 0xFF remain at entries 6 and 7. -/
def alpha_table_dxt5 (alpha0 alpha1 : Nat) : List Nat :=
  if alpha0 > alpha1 then
    [alpha0, alpha1,
     (6 * alpha0 + 1 * alpha1) / 7,
     (5 * alpha0 + 2 * alpha1) / 7,
     (4 * alpha0 + 3 * alpha1) / 7,
     (3 * alpha0 + 4 * alpha1) / 7,
     (2 * alpha0 + 5 * alpha1) / 7,
     (1 * alpha0 + 6 * alpha1) / 7]
  else
    [alpha0, alpha1,
     (4 * alpha0 + 1 * alpha1) / 5,
     (3 * alpha0 + 2 * alpha1) / 5,
     (2 * alpha0 + 3 * alpha1) / 5,
     (1 * alpha0 + 4 * alpha1) / 5,
     0, 0xFF]

/-- The first packed color endpoint of a DXT color block. -/
def dxtColor0 (source : List Nat) : Nat :=
  source.getD 0 0 + 256 * source.getD 1 0

/-- The second packed color endpoint of a DXT color block. -/
def dxtColor1 (source : List Nat) : Nat :=
  source.getD 2 0 + 256 * source.getD 3 0

/-- The 32-bit 2-bit-per-pixel color index table of a DXT color block. -/
def dxtColorTable (source : List Nat) : Nat :=
  source.getD 4 0 + 256 * source.getD 5 0 + 65536 * source.getD 6 0 +
    16777216 * source.getD 7 0

/-- The 4-entry color table of `decode_dxt_colors`: the two expanded
endpoints and either two 1/3–2/3 blends (`color0 > color1` or not BC1)
or one midpoint with the fourth entry left at black (BC1 with
`color0 <= color1`). -/
def dxtColors (source : List Nat) (is_bc1 : Bool) : List Rgb :=
  let colors0 := enc565_decode (dxtColor0 source)
  let colors1 := enc565_decode (dxtColor1 source)
  if dxtColor0 source > dxtColor1 source || !is_bc1 then
    [colors0, colors1,
     ((colors0.1 * 2 + colors1.1 + 1) / 3,
      (colors0.2.1 * 2 + colors1.2.1 + 1) / 3,
      (colors0.2.2 * 2 + colors1.2.2 + 1) / 3),
     ((colors0.1 + colors1.1 * 2 + 1) / 3,
      (colors0.2.1 + colors1.2.1 * 2 + 1) / 3,
      (colors0.2.2 + colors1.2.2 * 2 + 1) / 3)]
  else
    [colors0, colors1,
     ((colors0.1 + colors1.1 + 1) / 2,
      (colors0.2.1 + colors1.2.1 + 1) / 2,
      (colors0.2.2 + colors1.2.2 + 1) / 2),
     (0, 0, 0)]

/-- The RGB value `decode_dxt_colors` writes for pixel `i` (0–15): the
color-table entry selected by the `i`-th 2-bit index. -/
def decode_dxt_colors_pixel (source : List Nat) (is_bc1 : Bool) (i : Nat) :
    Rgb :=
  (dxtColors source is_bc1).getD (dxtColorTable source >>> (i * 2) &&& 3)
    (0, 0, 0)

/-- The 48-bit little-endian alpha index table of a DXT5 alpha block
(bytes 2–7 of the 8-byte half-block). -/
def dxt5AlphaBits (source : List Nat) : Nat :=
  lcombine [source.getD 2 0, source.getD 3 0, source.getD 4 0,
    source.getD 5 0, source.getD 6 0, source.getD 7 0]

/-- The single-channel value a DXT5-style alpha half-block decodes for
pixel `i`: the alpha-ramp entry selected by the `i`-th 3-bit index. -/
def dxt5AlphaPixel (source : List Nat) (i : Nat) : Nat :=
  (alpha_table_dxt5 (source.getD 0 0) (source.getD 1 0)).getD
    (dxt5AlphaBits source >>> (i * 3) &&& 7) 0

/-- `decode_bc1_block`: pixel `i` of a decoded BC1 (DXT1) block. -/
def decode_bc1_block (source : List Nat) (i : Nat) : Rgb :=
  decode_dxt_colors_pixel source true i

/-- The 64-bit 4-bit-per-pixel alpha table of a DXT3 block (bytes 0–7). -/
def dxt3AlphaBits (source : List Nat) : Nat :=
  lcombine [source.getD 0 0, source.getD 1 0, source.getD 2 0,
    source.getD 3 0, source.getD 4 0, source.getD 5 0, source.getD 6 0,
    source.getD 7 0]

/-- `decode_dxt3_block`: pixel `i` of a decoded BC2 (DXT3) block as
RGB plus the 4-bit alpha expanded by `* 0x11`. -/
def decode_dxt3_block (source : List Nat) (i : Nat) : Rgb × Nat :=
  (decode_dxt_colors_pixel (source.drop 8) false i,
   (dxt3AlphaBits source >>> (i * 4) &&& 0xF) * 0x11)

/-- `decode_dxt5_block`: pixel `i` of a decoded BC3 (DXT5) block as
RGB plus the interpolated alpha. -/
def decode_dxt5_block (source : List Nat) (i : Nat) : Rgb × Nat :=
  (decode_dxt_colors_pixel (source.drop 8) false i,
   dxt5AlphaPixel (source.take 8) i)

/-- `decode_bc4_block`: pixel `i` of a decoded BC4 (single-channel)
block. -/
def decode_bc4_block (source : List Nat) (i : Nat) : Nat :=
  dxt5AlphaPixel source i

/-- `decode_bc5_block`: pixel `i` of a decoded BC5 (two-channel) block:
the two DXT5-style half-blocks decoded independently. -/
def decode_bc5_block (source : List Nat) (i : Nat) : Nat × Nat :=
  (dxt5AlphaPixel (source.take 8) i, dxt5AlphaPixel (source.drop 8) i)

/-! ## Spec-side characterizations used by the claims -/

/-- `j` is the index of the LAST material in the list carrying the given
identity. -/
def isLastIndexWithId (materials : List Material) (material_id : Nat)
    (j : Nat) : Prop :=
  (∃ m, materials.get? j = some m ∧ m.material_id = material_id) ∧
    ∀ k m', materials.get? k = some m' → j < k →
      m'.material_id ≠ material_id

/-- Concrete test stream for a single joint record: all zero except the
32-bit parent-index field at offset 16, which holds 5. -/
def jointStream : List Nat :=
  List.replicate 16 0 ++ [5, 0, 0, 0] ++ List.replicate 124 0

/-- Concrete test stream for a material whose single tag-counted section
carries the unknown hash 0xDEADBEEF: declared header size 28 (end offset
44), no skip hashes, parameter count 1. -/
def materialStream : List Nat :=
  List.replicate 16 0 ++ [28, 0, 0, 0] ++ List.replicate 16 0 ++
    [1, 0, 0, 0] ++ [0xEF, 0xBE, 0xAD, 0xDE] ++ List.replicate 8 0

/-! # Basic lemmas about the reader monad -/

namespace ParseM

theorem bind_def (m : ParseM α) (f : α → ParseM β) : m >>= f = bindP m f := rfl

theorem pure_def (a : α) : (pure a : ParseM α) = pureP a := rfl

@[simp] theorem pureP_apply (a : α) (d : List Nat) (p : Nat) :
    pureP a d p = .ok (a, p) := rfl

/-- Inversion principle for a successful bind. -/
@[simp] theorem bindP_ok (m : ParseM α) (f : α → ParseM β) (d : List Nat)
    (p q : Nat) (b : β) :
    bindP m f d p = .ok (b, q) ↔
      ∃ a r, m d p = .ok (a, r) ∧ f a d r = .ok (b, q) := by
  unfold bindP
  cases h : m d p with
  | ok ar =>
    obtain ⟨a, r⟩ := ar
    simp only [Except.ok.injEq, Prod.mk.injEq]
    constructor
    · intro h'
      exact ⟨a, r, ⟨rfl, rfl⟩, h'⟩
    · rintro ⟨a1, r1, ⟨rfl, rfl⟩, h'⟩
      exact h'
  | error e => simp

end ParseM

open ParseM in
/-- A successful `readN` returns exactly `n` elements. -/
theorem readN_length {n : Nat} {m : ParseM α} {d : List Nat} {p q : Nat}
    {l : List α} (h : readN n m d p = .ok (l, q)) : l.length = n := by
  induction n generalizing p q l with
  | zero =>
    simp only [readN, pure_def, pureP_apply, Except.ok.injEq, Prod.mk.injEq] at h
    simp [← h.1]
  | succ k ih =>
    simp only [readN, bind_def, pure_def, bindP_ok, pureP_apply,
      Except.ok.injEq, Prod.mk.injEq] at h
    obtain ⟨a, r, _, rest, r', hrest, hl, _⟩ := h
    subst hl
    simp [ih hrest]

open ParseM

@[simp] theorem seekStart_apply (v : Nat) (d : List Nat) (p : Nat) :
    seekStart v d p = .ok ((), v) := rfl

@[simp] theorem streamPos_apply (d : List Nat) (p : Nat) :
    streamPos d p = .ok (p, p) := rfl

theorem readU8_ok {d : List Nat} {p q b : Nat} :
    readU8 d p = .ok (b, q) ↔ d.get? p = some b ∧ q = p + 1 := by
  unfold readU8
  cases h : d.get? p with
  | some b' => simp [h, eq_comm, and_comm]
  | none => simp [h]

theorem readBytes_ok_pos {n : Nat} {d : List Nat} {p q : Nat} {bs : List Nat}
    (h : readBytes n d p = .ok (bs, q)) : q = p + n ∧ bs.length = n := by
  induction n generalizing p q bs with
  | zero =>
    simp only [readBytes, pure_def, pureP_apply, Except.ok.injEq,
      Prod.mk.injEq] at h
    simp [← h.1, ← h.2]
  | succ k ih =>
    simp only [readBytes, bind_def, pure_def, bindP_ok, pureP_apply,
      Except.ok.injEq, Prod.mk.injEq] at h
    obtain ⟨b, r, hb, rest, r', hrest, hbs, hq⟩ := h
    obtain ⟨hr', hlen⟩ := ih hrest
    obtain ⟨_, hr⟩ := readU8_ok.mp hb
    subst hbs
    constructor
    · omega
    · simp [hlen]

theorem readBytes_of_le {n : Nat} {d : List Nat} {p : Nat}
    (h : p + n ≤ d.length) :
    readBytes n d p = .ok ((d.drop p).take n, p + n) := by
  induction n generalizing p with
  | zero => simp [readBytes, pure_def]
  | succ k ih =>
    have hp : p < d.length := by omega
    have hg : d.get? p = some (d.get ⟨p, hp⟩) := List.get?_eq_get hp
    have hdrop : d.drop p = d.get ⟨p, hp⟩ :: d.drop (p + 1) :=
      List.drop_eq_getElem_cons hp
    simp only [readBytes, bind_def, pure_def, bindP_ok, pureP_apply]
    refine ⟨d.get ⟨p, hp⟩, p + 1, readU8_ok.mpr ⟨hg, rfl⟩, ?_⟩
    have := @ih (p + 1) (by omega)
    refine ⟨(d.drop (p + 1)).take k, p + 1 + k, this, ?_⟩
    simp only [Except.ok.injEq, Prod.mk.injEq]
    constructor
    · rw [hdrop, List.take_succ_cons]
    · omega

/-- A successful `n`-byte read means the data holds at least `p + n`
bytes. -/
theorem readBytes_ok_le {n : Nat} {d : List Nat} {p q : Nat}
    {bs : List Nat} (h : readBytes n d p = .ok (bs, q)) (hn : 0 < n) :
    p + n ≤ d.length := by
  induction n generalizing p q bs with
  | zero => omega
  | succ k ih =>
    simp only [readBytes, bind_def, pure_def, bindP_ok, pureP_apply,
      Except.ok.injEq, Prod.mk.injEq] at h
    obtain ⟨b, r, hb, rest, r', hrest, _, _⟩ := h
    obtain ⟨hget, hr⟩ := readU8_ok.mp hb
    obtain ⟨hlt, _⟩ := List.get?_eq_some.mp hget
    cases k with
    | zero => omega
    | succ k' =>
      subst hr
      have := ih hrest (by omega)
      omega

theorem readU32_ok {d : List Nat} {p q v : Nat}
    (h : readU32 d p = .ok (v, q)) : v = u32At d p ∧ q = p + 4 := by
  simp only [readU32, bind_def, pure_def, bindP_ok, pureP_apply,
    Except.ok.injEq, Prod.mk.injEq] at h
  obtain ⟨bs, r, hbs, hv, hq⟩ := h
  have hle : p + 4 ≤ d.length := readBytes_ok_le hbs (by omega)
  rw [readBytes_of_le hle] at hbs
  obtain ⟨hbs', hr⟩ := by
    simpa only [Except.ok.injEq, Prod.mk.injEq] using hbs
  have h0 : p < d.length := by omega
  have h1 : p + 1 < d.length := by omega
  have h2 : p + 2 < d.length := by omega
  have h3 : p + 3 < d.length := by omega
  have e0 : d.drop p = d[p] :: d.drop (p + 1) := List.drop_eq_getElem_cons h0
  have e1 : d.drop (p + 1) = d[p + 1] :: d.drop (p + 2) :=
    List.drop_eq_getElem_cons h1
  have e2 : d.drop (p + 2) = d[p + 2] :: d.drop (p + 3) :=
    List.drop_eq_getElem_cons h2
  have e3 : d.drop (p + 3) = d[p + 3] :: d.drop (p + 4) :=
    List.drop_eq_getElem_cons h3
  constructor
  · subst hv
    rw [← hbs', e0, e1, e2, e3]
    simp only [List.take_succ_cons, List.take_zero, lcombine, u32At,
      List.getD_eq_getElem d 0 h0, List.getD_eq_getElem d 0 h1,
      List.getD_eq_getElem d 0 h2, List.getD_eq_getElem d 0 h3]
    ring
  · omega

/-- Evaluation helper: `mapM` of an `Option`-valued function over the
two-element index list. -/
theorem mapM_pair {β : Type} (f : Nat → Option β) (b0 b1 : β)
    (h0 : f 0 = some b0) (h1 : f 1 = some b1) :
    List.mapM f [0, 1] = some [b0, b1] := by
  simp [List.mapM, List.mapM.loop, h0, h1]

/-- With equal packed endpoints the 4-entry color table degenerates: all
blend entries equal the expanded endpoint, except that the BC1
two-color branch leaves the fourth entry at black. -/
theorem dxtColors_eq_endpoint (s : List Nat) (b : Bool)
    (h : dxtColor0 s = dxtColor1 s) :
    dxtColors s b =
      [enc565_decode (dxtColor0 s), enc565_decode (dxtColor0 s),
       enc565_decode (dxtColor0 s),
       if b then (0, 0, 0) else enc565_decode (dxtColor0 s)] := by
  rcases he : enc565_decode (dxtColor0 s) with ⟨r, g, bl⟩
  simp only [dxtColors, ← h, he, gt_iff_lt, lt_irrefl, decide_False,
    Bool.false_or]
  cases b with
  | false =>
    simp only [Bool.not_false, if_true, List.cons.injEq, Prod.mk.injEq,
      Bool.false_eq_true, if_false, and_true, true_and]
    omega
  | true =>
    simp only [Bool.not_true, Bool.false_eq_true, if_false, if_true,
      List.cons.injEq, Prod.mk.injEq, and_true, true_and]
    omega

/-- Every 2-bit color index is below 4. -/
theorem colorIndex_lt_four (s : List Nat) (i : Nat) :
    dxtColorTable s >>> (i * 2) &&& 3 < 4 :=
  lt_of_le_of_lt Nat.and_le_right (by norm_num)

/-- Non-BC1 color decode with equal endpoints is the expanded endpoint
at every pixel. -/
theorem decode_dxt_colors_pixel_not_bc1 (s : List Nat) (i : Nat)
    (h : dxtColor0 s = dxtColor1 s) :
    decode_dxt_colors_pixel s false i = enc565_decode (dxtColor0 s) := by
  unfold decode_dxt_colors_pixel
  rw [dxtColors_eq_endpoint s false h]
  have hidx := colorIndex_lt_four s i
  set idx := dxtColorTable s >>> (i * 2) &&& 3 with hdef
  interval_cases idx <;> simp

/-- BC1 color decode with equal endpoints is the expanded endpoint at
every pixel whose 2-bit index is below 3. -/
theorem decode_dxt_colors_pixel_bc1 (s : List Nat) (i : Nat)
    (h : dxtColor0 s = dxtColor1 s)
    (hidx : dxtColorTable s >>> (i * 2) &&& 3 < 3) :
    decode_dxt_colors_pixel s true i = enc565_decode (dxtColor0 s) := by
  unfold decode_dxt_colors_pixel
  rw [dxtColors_eq_endpoint s true h]
  set idx := dxtColorTable s >>> (i * 2) &&& 3 with hdef
  interval_cases idx <;> simp

/-- With equal endpoints the 8-entry alpha ramp is constant except for
the two fixed sentinels at indices 6 and 7. -/
theorem alpha_table_dxt5_eq_endpoint (a : Nat) :
    alpha_table_dxt5 a a = [a, a, a, a, a, a, 0, 0xFF] := by
  simp only [alpha_table_dxt5, gt_iff_lt, lt_irrefl, if_false,
    List.cons.injEq, and_true, true_and]
  omega

/-- DXT5-style alpha decode with equal endpoints is the endpoint at
every pixel whose 3-bit index is below 6. -/
theorem dxt5AlphaPixel_eq_endpoint (s : List Nat) (i : Nat)
    (h : s.getD 0 0 = s.getD 1 0)
    (hidx : dxt5AlphaBits s >>> (i * 3) &&& 7 < 6) :
    dxt5AlphaPixel s i = s.getD 0 0 := by
  unfold dxt5AlphaPixel
  rw [← h, alpha_table_dxt5_eq_endpoint]
  set idx := dxt5AlphaBits s >>> (i * 3) &&& 7 with hdef
  interval_cases idx <;> simp

theorem material_index_fold_aux_spec (material_id : Nat)
    (l : List Material) (i : Nat) (acc : Option Nat) (j : Nat)
    (h : material_index_fold_aux material_id l i acc = some j) :
    (∃ k m, l.get? k = some m ∧ m.material_id = material_id ∧ j = i + k ∧
       ∀ k' m', l.get? k' = some m' → k < k' →
         m'.material_id ≠ material_id) ∨
      (acc = some j ∧ ∀ m ∈ l, m.material_id ≠ material_id) := by
  induction l generalizing i acc with
  | nil =>
    right
    exact ⟨h, by simp⟩
  | cons m rest ih =>
    simp only [material_index_fold_aux] at h
    rcases ih _ _ h with ⟨k, mm, hget, hid, hj, hlater⟩ | ⟨hacc, hnone⟩
    · left
      refine ⟨k + 1, mm, by simpa using hget, hid, by omega, ?_⟩
      intro k' m' hget' hlt
      cases k' with
      | zero => omega
      | succ k'' =>
        exact hlater k'' m' (by simpa using hget') (by omega)
    · by_cases hm : m.material_id = material_id
      · left
        rw [if_pos hm] at hacc
        have hij : i = j := by simpa using hacc
        refine ⟨0, m, rfl, hm, by omega, ?_⟩
        intro k' m' hget' hlt
        cases k' with
        | zero => omega
        | succ k'' =>
          exact hnone m' (List.get?_mem (by simpa using hget'))
      · right
        rw [if_neg hm] at hacc
        refine ⟨hacc, ?_⟩
        intro m' hm'
        rcases List.mem_cons.mp hm' with rfl | hmem
        · exact hm
        · exact hnone m' hmem

theorem material_index_fold_spec (materials : List Material)
    (material_id j : Nat)
    (h : material_index_fold materials material_id = some j) :
    isLastIndexWithId materials material_id j := by
  rcases material_index_fold_aux_spec material_id materials 0 none j h with
    ⟨k, m, hget, hid, hj, hlater⟩ | ⟨hacc, _⟩
  · refine ⟨⟨m, by simpa [hj] using hget, hid⟩, ?_⟩
    intro k' m' hget' hlt
    exact hlater k' m' hget' (by omega)
  · exact absurd hacc (by simp)

/-- Forward evaluation of a bind whose first component's run is known. -/
theorem run_bind (m : ParseM α) (f : α → ParseM β) {d : List Nat}
    {p : Nat} {a : α} {r : Nat} (h : m d p = .ok (a, r)) :
    (m >>= f) d p = f a d r := by
  rw [ParseM.bind_def]
  unfold ParseM.bindP
  rw [h]

/-- A successful 64-bit read advances the cursor by 8. -/
theorem readU64_ok_pos {d : List Nat} {p q v : Nat}
    (h : readU64 d p = .ok (v, q)) : q = p + 8 := by
  simp only [readU64, ParseM.bind_def, ParseM.pure_def, ParseM.bindP_ok,
    ParseM.pureP_apply, Except.ok.injEq, Prod.mk.injEq] at h
  obtain ⟨bs, r, hbs, _, hq⟩ := h
  have := (readBytes_ok_pos hbs).1
  omega

/-- A successful 32-bit read advances the cursor by 4. -/
theorem readU32_ok_pos {d : List Nat} {p q v : Nat}
    (h : readU32 d p = .ok (v, q)) : q = p + 4 :=
  (readU32_ok h).2

/-- A backward 4-byte seek undoes a 4-byte advance. -/
theorem seekCur_back4 (d : List Nat) (p : Nat) :
    seekCur (-0x04) d (p + 4) = .ok ((), p) := by
  unfold seekCur
  rw [if_pos (by omega)]
  norm_num

/-- Appending a bone-info whose translation panics, or whose tail
translation panics, panics. -/
theorem translateBones_cons_none (bone_ids : List Nat) (bi : BoneInfo)
    (rest : List BoneInfo) (h : translateBones bone_ids rest = none) :
    translateBones bone_ids (bi :: rest) = none := by
  simp only [translateBones, h]
  cases bone_ids.get? bi.bone_1 <;> cases bone_ids.get? bi.bone_2 <;>
    cases bone_ids.get? bi.bone_3 <;> cases bone_ids.get? bi.bone_4 <;> simp

/-- Evaluated form of a byte-seek by an arbitrary offset landing at a
known nonnegative position. -/
theorem seekCur_eval {delta : Int} {q : Nat} (d : List Nat) (p : Nat)
    (h : (p : Int) + delta = (q : Int)) :
    seekCur delta d p = .ok ((), q) := by
  unfold seekCur
  rw [if_pos (by omega)]
  have : ((p : Int) + delta).toNat = q := by omega
  rw [this]

/-- Evaluated form of a successful 64-bit read. -/
theorem readU64_eval {d : List Nat} {p v : Nat} (h : p + 8 ≤ d.length)
    (hv : lcombine ((d.drop p).take 8) = v) :
    readU64 d p = .ok (v, p + 8) := by
  unfold readU64
  rw [run_bind _ _ (readBytes_of_le h)]
  show Except.ok (lcombine ((d.drop p).take 8), p + 8) = _
  rw [hv]

/-- Evaluated form of a successful 32-bit read. -/
theorem readU32_eval {d : List Nat} {p v : Nat} (h : p + 4 ≤ d.length)
    (hv : lcombine ((d.drop p).take 4) = v) :
    readU32 d p = .ok (v, p + 4) := by
  unfold readU32
  rw [run_bind _ _ (readBytes_of_le h)]
  show Except.ok (lcombine ((d.drop p).take 4), p + 4) = _
  rw [hv]

/-- Evaluated form of a successful 16-bit read. -/
theorem readU16_eval {d : List Nat} {p v : Nat} (h : p + 2 ≤ d.length)
    (hv : lcombine ((d.drop p).take 2) = v) :
    readU16 d p = .ok (v, p + 2) := by
  unfold readU16
  rw [run_bind _ _ (readBytes_of_le h)]
  show Except.ok (lcombine ((d.drop p).take 2), p + 2) = _
  rw [hv]

/-- Evaluated form of a successful float read: the value is the
rational denoted by the little-endian 32-bit pattern. -/
theorem readF32_eval {d : List Nat} {p v : Nat} (h : p + 4 ≤ d.length)
    (hv : lcombine ((d.drop p).take 4) = v) :
    readF32 d p = .ok (f32FromBits v, p + 4) := by
  unfold readF32
  rw [run_bind _ _ (readBytes_of_le h)]
  show Except.ok (f32FromBits (lcombine ((d.drop p).take 4)), p + 4) = _
  rw [hv]

/-- Evaluated form of a successful single-byte read. -/
theorem readU8_eval {d : List Nat} {p v : Nat} (h : d.get? p = some v) :
    readU8 d p = .ok (v, p + 1) :=
  readU8_ok.mpr ⟨h, rfl⟩

/-- The zero bit pattern denotes the rational 0. -/
theorem f32FromBits_zero : f32FromBits 0 = 0 := by
  norm_num [f32FromBits]

/-- `run_bind` with the continuation universally quantified, usable as
a rewrite rule. -/
theorem run_bind' {m : ParseM α} {d : List Nat} {p : Nat} {a : α}
    {r : Nat} (h : m d p = .ok (a, r)) (f : α → ParseM β) :
    (m >>= f) d p = f a d r :=
  run_bind m f h

/-- Running `pure` composed with a continuation. -/
theorem bind_pure_run (a : α) (f : α → ParseM β) (d : List Nat)
    (p : Nat) : ((pure a : ParseM α) >>= f) d p = f a d p := rfl

/-- Running a bare `pure`. -/
theorem pure_apply (a : α) (d : List Nat) (p : Nat) :
    (pure a : ParseM α) d p = .ok (a, p) := rfl

/-- `mapM` over `Option` fails when any element fails. -/
theorem option_mapM_none {α β : Type} {f : α → Option β} {l : List α}
    {x : α} (hx : x ∈ l) (hfx : f x = none) : l.mapM f = none := by
  induction l with
  | nil => simp at hx
  | cons a l ih =>
    rw [List.mapM_cons]
    rcases List.mem_cons.mp hx with rfl | hmem
    · rw [hfx]
      rfl
    · cases hfa : f a with
      | none => rfl
      | some b =>
        show (l.mapM f >>= fun bs => pure (b :: bs)) = none
        rw [ih hmem]
        rfl

/-- The pre-pass is a no-op for every plain enumerated flag. -/
theorem meshPrePass_plain {vert_flags : Nat}
    (hflags : vert_flags ∈ [0x00, 0x01, 0x03, 0x05, 0x09, 0x21])
    (vert_start vert_count : Nat) (d : List Nat) (p : Nat) :
    meshPrePass vert_start vert_flags vert_count d p = .ok ([], p) := by
  fin_cases hflags <;> rfl

/-- An absent weight channel reads nothing. -/
theorem meshReadWeights_zero (weights_format vert_count : Nat)
    (d : List Nat) (p : Nat) :
    meshReadWeights 0 weights_format vert_count d p = .ok ([], p) := rfl

/-- An absent bone channel reads nothing. -/
theorem meshReadBones_zero (bones_format vert_count : Nat) (d : List Nat)
    (p : Nat) : meshReadBones 0 bones_format vert_count d p = .ok ([], p) :=
  rfl

/-- An absent normal channel reads nothing. -/
theorem meshReadNormals_zero (normals_format vert_count : Nat)
    (d : List Nat) (p : Nat) :
    meshReadNormals 0 normals_format vert_count d p = .ok ([], p) := rfl

/-- An absent tangent channel reads nothing. -/
theorem meshReadTangents_zero (tangents_format vert_count : Nat)
    (d : List Nat) (p : Nat) :
    meshReadTangents 0 tangents_format vert_count d p = .ok ((), p) := rfl

/-- An absent binormal channel reads nothing. -/
theorem meshReadBinormals_zero (binormals_format vert_count : Nat)
    (d : List Nat) (p : Nat) :
    meshReadBinormals 0 binormals_format vert_count d p = .ok ((), p) := rfl

/-- An absent color channel reads nothing. -/
theorem meshReadColors_zero (colors_format vert_count : Nat)
    (d : List Nat) (p : Nat) :
    meshReadColors 0 colors_format vert_count d p = .ok ((), p) := rfl

/-- An absent UV layer reads nothing. -/
theorem readOptUV_zero (uv_format vert_count : Nat)
    (uv_clamps : Option UVClamps) (d : List Nat) (p : Nat) :
    readOptUV 0 uv_format vert_count uv_clamps d p = .ok (none, p) := rfl

/-- Translating no bone infos yields no bone references. -/
theorem translateBones_nil (bone_ids : List Nat) :
    translateBones bone_ids [] = some [] := rfl

/-- Appending an absent UV layer is the identity. -/
theorem appendUV_none (uv : List (List UV)) : appendUV uv none = uv := rfl

/-- A present position channel in a recognized format reads exactly
`vert_count` positions on success. -/
theorem meshReadPositions_length {b f n : Nat} {mc : ModelClamps}
    {d : List Nat} {p q : Nat} {l : List Vec3} (hb : 0 < b)
    (hf : f = 4 ∨ f = 27 ∨ f = 42)
    (h : meshReadPositions b f n mc d p = .ok (l, q)) : l.length = n := by
  rcases hf with rfl | rfl | rfl <;>
    · rw [meshReadPositions, if_pos hb] at h
      exact readN_length h

/-! ## Lemmas about the binary32 rounding model -/

/-- `natLog2A` with enough fuel computes `⌊log₂ n⌋`. -/
theorem natLog2A_spec (fuel : Nat) : ∀ n, 1 ≤ n → n ≤ fuel →
    2 ^ natLog2A fuel n ≤ n ∧ n < 2 ^ (natLog2A fuel n + 1) := by
  induction fuel with
  | zero => intro n h1 h2; omega
  | succ f ih =>
    intro n h1 h2
    by_cases hn : n < 2
    · simp only [natLog2A, if_pos hn]
      norm_num
      omega
    · have h2' : n / 2 ≤ f := by omega
      have h1' : 1 ≤ n / 2 := by omega
      have hrec := ih (n / 2) h1' h2'
      simp only [natLog2A, if_neg hn]
      have e1 : 2 ^ (natLog2A f (n / 2) + 1) = 2 * 2 ^ natLog2A f (n / 2) := by
        ring
      have e2 : 2 ^ (natLog2A f (n / 2) + 1 + 1) =
          2 * 2 ^ (natLog2A f (n / 2) + 1) := by
        ring
      omega

/-- `⌊log₂ n⌋` bounds. -/
theorem natLog2_spec {n : Nat} (h : 1 ≤ n) :
    2 ^ natLog2 n ≤ n ∧ n < 2 ^ (natLog2 n + 1) :=
  natLog2A_spec n n h le_rfl

/-- `floorLog2` does not overestimate: `2 ^ floorLog2 a b ≤ a / b`. -/
theorem floorLog2_le {a b : Nat} (ha : 1 ≤ a) (hb : 1 ≤ b) :
    (2 : ℚ) ^ floorLog2 a b ≤ (a : ℚ) / b := by
  have hb0 : (0 : ℚ) < b := by exact_mod_cast hb
  have hka : (2 : ℚ) ^ natLog2 a ≤ a := by exact_mod_cast (natLog2_spec ha).1
  have hbl : (b : ℚ) < 2 ^ (natLog2 b + 1) := by
    exact_mod_cast (natLog2_spec hb).2
  unfold floorLog2
  split
  · rename_i h
    have hq : ((b * 2 ^ natLog2 a : Nat) : ℚ) ≤
        ((a * 2 ^ natLog2 b : Nat) : ℚ) := Nat.cast_le.mpr h
    push_cast at hq
    have hz : (2 : ℚ) ^ ((natLog2 a : Int) - natLog2 b) =
        2 ^ natLog2 a / 2 ^ natLog2 b := by
      rw [zpow_sub₀ (by norm_num : (2 : ℚ) ≠ 0), zpow_natCast, zpow_natCast]
    rw [hz, div_le_div_iff₀ (by positivity) hb0]
    linarith
  · have hz : (2 : ℚ) ^ ((natLog2 a : Int) - natLog2 b - 1) =
        2 ^ natLog2 a / (2 ^ natLog2 b * 2) := by
      rw [sub_sub, zpow_sub₀ (by norm_num : (2 : ℚ) ≠ 0),
        zpow_add₀ (by norm_num : (2 : ℚ) ≠ 0), zpow_natCast, zpow_one,
        zpow_natCast]
    rw [hz, div_le_div_iff₀ (by positivity) hb0]
    have hb2 : (b : ℚ) ≤ 2 ^ natLog2 b * 2 := by
      have : (2 : ℚ) ^ (natLog2 b + 1) = 2 ^ natLog2 b * 2 := by ring
      linarith
    nlinarith [pow_pos (by norm_num : (0 : ℚ) < 2) (natLog2 a)]

/-- Rounding a nonnegative fraction to the nearest integer moves it by at
most one half. -/
theorem rnEvenNat_err {p q : Nat} (hq : 1 ≤ q) :
    |(rnEvenNat p q : ℚ) - (p : ℚ) / q| ≤ 1 / 2 := by
  have hq0 : (0 : ℚ) < q := by exact_mod_cast hq
  have hmod : p % q < q := Nat.mod_lt _ (by omega)
  have h0 : ((q * (p / q) + p % q : Nat) : ℚ) = (p : ℚ) := by
    exact_mod_cast Nat.div_add_mod p q
  have hsplit : (p : ℚ) / q = ((p / q : Nat) : ℚ) + ((p % q : Nat) : ℚ) / q := by
    rw [div_eq_iff (ne_of_gt hq0), add_mul, div_mul_cancel₀ _ (ne_of_gt hq0)]
    push_cast at h0 ⊢
    linarith
  rw [hsplit]
  have hr0 : (0 : ℚ) ≤ ((p % q : Nat) : ℚ) / q := by positivity
  simp only [rnEvenNat]
  split
  · rename_i hc
    have hc' : 2 * ((p % q : Nat) : ℚ) < q := by exact_mod_cast hc
    have hhalf : ((p % q : Nat) : ℚ) / q ≤ 1 / 2 := by
      rw [div_le_div_iff₀ hq0 (by norm_num)]
      linarith
    rw [abs_le]
    constructor <;> linarith
  · split
    · rename_i hc
      have hc' : (q : ℚ) < 2 * ((p % q : Nat) : ℚ) := by exact_mod_cast hc
      have hhalf : 1 / 2 ≤ ((p % q : Nat) : ℚ) / q := by
        rw [div_le_div_iff₀ (by norm_num) hq0]
        linarith
      have hone : ((p % q : Nat) : ℚ) / q ≤ 1 := by
        rw [div_le_one hq0]
        exact_mod_cast le_of_lt hmod
      push_cast
      rw [abs_le]
      constructor <;> linarith
    · rename_i hc1 hc2
      have he : 2 * (p % q) = q := by omega
      have heQ : (2 : ℚ) * ((p % q : Nat) : ℚ) = (q : ℚ) := by exact_mod_cast he
      have he' : ((p % q : Nat) : ℚ) / q = 1 / 2 := by
        rw [div_eq_div_iff (ne_of_gt hq0) (by norm_num : (2:ℚ) ≠ 0)]
        linarith
      split <;> (push_cast; rw [abs_le]; constructor <;> linarith)

/-- `rnEvenNat` of a zero numerator is zero. -/
theorem rnEvenNat_zero (q : Nat) : rnEvenNat 0 q = 0 := by
  rcases Nat.eq_zero_or_pos q with rfl | hq
  · norm_num [rnEvenNat]
  · simp [rnEvenNat, Nat.zero_div, Nat.zero_mod, hq]

/-- `rnEvenNat` with denominator one is the identity. -/
theorem rnEvenNat_one (p : Nat) : rnEvenNat p 1 = p := by
  simp [rnEvenNat, Nat.mod_one, Nat.div_one]

/-- Rounding zero gives the value zero. -/
theorem roundPos_zero_val (b : Nat) : (roundPos 0 b).toRat = 0 := by
  simp only [roundPos]
  split <;> simp [rnEvenNat_zero, Nat.zero_mul, F32.toRat]

/-- The value of a binary32 pair, as an integer power of two. -/
theorem toRat_zpow (x : F32) : x.toRat = (x.num : ℚ) * 2 ^ x.exp := by
  unfold F32.toRat
  split
  · rename_i h
    rw [← zpow_natCast (2 : ℚ), Int.toNat_of_nonneg h]
  · rename_i h
    rw [← zpow_natCast (2 : ℚ), Int.toNat_of_nonneg (by omega : (0 : Int) ≤ -x.exp),
      zpow_neg, div_eq_mul_inv, inv_inv]

/-- Negating the significand negates the value. -/
theorem toRat_neg (n e : Int) : (F32.mk (-n) e).toRat = -(F32.mk n e).toRat := by
  rw [toRat_zpow, toRat_zpow]
  push_cast
  ring

/-- Core error bound: rounding a positive rational bounded by 4 to a
binary32 value moves it by at most `2 ^ (-23)` relative to its leading
binade patterns, hence by at most `1 / 2 ^ 22` in absolute value. -/
theorem roundPos_err {a b : Nat} (ha : 1 ≤ a) (hb : 1 ≤ b)
    (hx : (a : ℚ) / b ≤ 4) :
    |(roundPos a b).toRat - (a : ℚ) / b| ≤ 1 / 2 ^ 22 := by
  have hb0 : (0 : ℚ) < b := by exact_mod_cast hb
  have hfl : (2 : ℚ) ^ floorLog2 a b ≤ (a : ℚ) / b := floorLog2_le ha hb
  have hee : floorLog2 a b ≤ 2 := by
    by_contra hcon
    push_neg at hcon
    have h8 : (2 : ℚ) ^ (3 : Int) ≤ (2 : ℚ) ^ floorLog2 a b :=
      zpow_le_zpow_right₀ (by norm_num) (by omega)
    norm_num at h8
    linarith
  have he21 : max (floorLog2 a b - 23) (-149) ≤ -21 :=
    max_le (by omega) (by norm_num)
  unfold roundPos
  rw [if_neg (by omega : ¬ (0 : Int) ≤ max (floorLog2 a b - 23) (-149))]
  set E := max (floorLog2 a b - 23) (-149) with hE
  set k := (-E).toNat with hk
  have hk21 : 21 ≤ k := by omega
  have h2k : (0 : ℚ) < 2 ^ k := by positivity
  unfold F32.toRat
  rw [if_neg (by omega : ¬ (0 : Int) ≤ E)]
  simp only
  have herr := rnEvenNat_err (p := a * 2 ^ k) (q := b) hb
  push_cast at herr
  have hgoal : ((rnEvenNat (a * 2 ^ k) b : Int) : ℚ) / 2 ^ k - (a : ℚ) / b =
      ((rnEvenNat (a * 2 ^ k) b : ℚ) - (a : ℚ) * 2 ^ k / b) / 2 ^ k := by
    push_cast
    field_simp
    ring
  rw [hgoal, abs_div, abs_of_pos h2k]
  have hstep : |(rnEvenNat (a * 2 ^ k) b : ℚ) - (a : ℚ) * 2 ^ k / b| / 2 ^ k ≤
      (1 / 2) / 2 ^ k := by gcongr
  have hfin : ((1 : ℚ) / 2) / 2 ^ k ≤ 1 / 2 ^ 22 := by
    rw [div_div]
    have h21 : (2 : ℚ) ^ 21 ≤ 2 ^ k := by
      exact pow_le_pow_right₀ (by norm_num) hk21
    have h22 : (2 : ℚ) ^ 22 ≤ 2 * 2 ^ k := by
      have : (2 : ℚ) ^ 22 = 2 * 2 ^ 21 := by norm_num
      linarith
    exact one_div_le_one_div_of_le (by positivity) h22
  linarith

/-- Error bound for signed rounding. -/
theorem roundF32_err {num : Int} {den : Nat} (hden : 1 ≤ den)
    (hx : |(num : ℚ) / den| ≤ 4) :
    |(roundF32 num den).toRat - (num : ℚ) / den| ≤ 1 / 2 ^ 22 := by
  have hden0 : (0 : ℚ) < den := by exact_mod_cast hden
  unfold roundF32
  split
  · rename_i hneg
    have h1 : 1 ≤ (-num).toNat := by omega
    have hcast : (((-num).toNat : Nat) : ℚ) = -(num : ℚ) := by
      have : (((-num).toNat : Nat) : Int) = -num :=
        Int.toNat_of_nonneg (by omega)
      exact_mod_cast this
    have hx4 : (((-num).toNat : Nat) : ℚ) / den ≤ 4 := by
      rw [hcast]
      have : -(num : ℚ) / den ≤ |(num : ℚ) / den| := by
        rw [← abs_neg, neg_div]
        exact le_abs_self _
      linarith
    have hmain := roundPos_err h1 hden hx4
    rw [hcast] at hmain
    have hR : (F32.mk (-(roundPos (-num).toNat den).num)
        (roundPos (-num).toNat den).exp).toRat =
        -(roundPos (-num).toNat den).toRat :=
      toRat_neg (roundPos (-num).toNat den).num (roundPos (-num).toNat den).exp
    rw [hR]
    have hflip : -(roundPos (-num).toNat den).toRat - (num : ℚ) / den =
        -((roundPos (-num).toNat den).toRat - -(num : ℚ) / den) := by ring
    rw [hflip, abs_neg]
    exact hmain
  · rename_i hpos
    rcases Nat.eq_zero_or_pos num.toNat with h0 | h1
    · have hz : num = 0 := by omega
      subst hz
      simp only [Int.toNat_zero, roundPos_zero_val, Int.cast_zero, zero_div,
        sub_zero, abs_zero]
      positivity
    · have hcast : ((num.toNat : Nat) : ℚ) = (num : ℚ) := by
        have : ((num.toNat : Nat) : Int) = num := Int.toNat_of_nonneg (by omega)
        exact_mod_cast this
      have hx4 : ((num.toNat : Nat) : ℚ) / den ≤ 4 := by
        rw [hcast]
        calc (num : ℚ) / den ≤ |(num : ℚ) / den| := le_abs_self _
          _ ≤ 4 := hx
      have hmain := roundPos_err h1 hden hx4
      rw [hcast] at hmain
      exact hmain

/-- Error bound for signed rounding, with the exact value supplied. -/
theorem roundF32_err_val {num : Int} {den : Nat} (hden : 1 ≤ den) (v : ℚ)
    (hv : (num : ℚ) / den = v) (hx : |v| ≤ 4) :
    |(roundF32 num den).toRat - v| ≤ 1 / 2 ^ 22 := by
  subst hv
  exact roundF32_err hden hx

/-- Error bound for binary32 division by a positive integer constant. -/
theorem divNat_err (x : F32) {d : Nat} (hd : 1 ≤ d)
    (hx : |x.toRat / d| ≤ 4) :
    |(x.divNat d).toRat - x.toRat / d| ≤ 1 / 2 ^ 22 := by
  unfold F32.divNat
  split
  · rename_i h
    apply roundF32_err_val hd
    · unfold F32.toRat
      rw [if_pos h]
      push_cast
      ring
    · exact hx
  · rename_i h
    have hpos : (0 : Nat) < d * 2 ^ (-x.exp).toNat := by positivity
    apply roundF32_err_val (by omega)
    · unfold F32.toRat
      rw [if_neg h]
      push_cast
      ring
    · exact hx

/-- Error bound for binary32 addition. -/
theorem add_err (x y : F32) (hx : |x.toRat + y.toRat| ≤ 4) :
    |(x.add y).toRat - (x.toRat + y.toRat)| ≤ 1 / 2 ^ 22 := by
  have hm1 : (0 : Int) ≤ x.exp - min x.exp y.exp :=
    sub_nonneg.mpr (min_le_left _ _)
  have hm2 : (0 : Int) ≤ y.exp - min x.exp y.exp :=
    sub_nonneg.mpr (min_le_right _ _)
  have hsum : x.toRat + y.toRat =
      ((x.num * 2 ^ (x.exp - min x.exp y.exp).toNat +
        y.num * 2 ^ (y.exp - min x.exp y.exp).toNat : Int) : ℚ) *
        (2 : ℚ) ^ (min x.exp y.exp) := by
    rw [toRat_zpow x, toRat_zpow y]
    push_cast
    rw [← zpow_natCast (2 : ℚ) (x.exp - min x.exp y.exp).toNat,
      ← zpow_natCast (2 : ℚ) (y.exp - min x.exp y.exp).toNat,
      Int.toNat_of_nonneg hm1, Int.toNat_of_nonneg hm2,
      add_mul, mul_assoc, mul_assoc,
      ← zpow_add₀ (by norm_num : (2 : ℚ) ≠ 0),
      ← zpow_add₀ (by norm_num : (2 : ℚ) ≠ 0),
      sub_add_cancel, sub_add_cancel]
  simp only [F32.add]
  split
  · rename_i h
    apply roundF32_err_val (le_refl 1)
    · rw [hsum]
      push_cast
      rw [← zpow_natCast (2 : ℚ) (min x.exp y.exp).toNat,
        Int.toNat_of_nonneg h]
      ring
    · exact hx
  · rename_i h
    have hp : (0 : Nat) < 2 ^ (-(min x.exp y.exp)).toNat := by positivity
    apply roundF32_err_val (by omega)
    · rw [hsum]
      push_cast
      rw [← zpow_natCast (2 : ℚ) (-(min x.exp y.exp)).toNat,
        Int.toNat_of_nonneg (by omega : (0 : Int) ≤ -(min x.exp y.exp)),
        zpow_neg, div_eq_mul_inv, inv_inv]
    · exact hx

/-- Error bound for binary32 subtraction. -/
theorem sub_err (x y : F32) (hx : |x.toRat - y.toRat| ≤ 4) :
    |(x.sub y).toRat - (x.toRat - y.toRat)| ≤ 1 / 2 ^ 22 := by
  unfold F32.sub
  have hneg : (F32.mk (-y.num) y.exp).toRat = -y.toRat := by
    rw [toRat_neg]
  have h4 : |x.toRat + (F32.mk (-y.num) y.exp).toRat| ≤ 4 := by
    rw [hneg, ← sub_eq_add_neg]
    exact hx
  have hmain := add_err x ⟨-y.num, y.exp⟩ h4
  rw [hneg, ← sub_eq_add_neg] at hmain
  exact hmain

/-- `as f32` conversion is exact up to 1023 (in fact up to `2 ^ 24`). -/
theorem f32OfNat_val {n : Nat} (hn : n ≤ 1023) : (f32OfNat n).toRat = n := by
  rcases Nat.eq_zero_or_pos n with rfl | h1
  · unfold f32OfNat roundF32
    rw [if_neg (by omega : ¬ (((0 : Nat) : Int) < 0))]
    simpa using roundPos_zero_val 1
  · unfold f32OfNat roundF32
    rw [if_neg (by omega : ¬ ((n : Int) < 0)), Int.toNat_natCast]
    have hk9 : natLog2 n ≤ 9 := by
      by_contra hcon
      push_neg at hcon
      have h2 : 2 ^ 10 ≤ 2 ^ natLog2 n := Nat.pow_le_pow_right (by omega) (by omega)
      have := (natLog2_spec h1).1
      omega
    have hl1 : natLog2 1 = 0 := rfl
    have hfl : floorLog2 n 1 = (natLog2 n : Int) := by
      unfold floorLog2
      rw [if_pos]
      · rw [hl1]
        norm_num
      · rw [hl1]
        have := (natLog2_spec h1).1
        simpa using this
    simp only [roundPos, hfl]
    have hmax : max ((natLog2 n : Int) - 23) (-149) = (natLog2 n : Int) - 23 :=
      max_eq_left (by omega)
    rw [hmax, if_neg (by omega : ¬ (0 : Int) ≤ (natLog2 n : Int) - 23)]
    have h23 : (-((natLog2 n : Int) - 23)).toNat = 23 - natLog2 n := by omega
    rw [h23, rnEvenNat_one]
    unfold F32.toRat
    rw [if_neg (by omega : ¬ (0 : Int) ≤ (natLog2 n : Int) - 23)]
    simp only [h23]
    push_cast
    rw [mul_div_assoc,
      div_self (ne_of_gt (by positivity : (0 : ℚ) < 2 ^ (23 - natLog2 n))),
      mul_one]

/-! # Claims -/

/-- C1 counterexample: with two materials both carrying identity 7, the
fixup resolves a polygon group referencing that identity to index 1
(the last carrier), not index 0 (the first carrier). -/
theorem c1_counterexample :
    fix_material_index [⟨7⟩] [⟨[], 7⟩, ⟨[], 7⟩]
        [⟨0, 0, 0, 0, 0, 0, 0, 0⟩] =
      .ok [⟨0, 0, 0, 0, 0, 0, 1, 0⟩] ∧
    firstIndexWithId [⟨[], 7⟩, ⟨[], 7⟩] 7 = some 0 ∧
    (1 : Nat) ≠ 0 :=
  ⟨rfl, rfl, by decide⟩

/-- C1 (amended): the material-index fixup resolves every polygon group
(via its material group) to the index of the LAST material in the
ordered list carrying that 64-bit identity — duplicate identities
collapse to the last resolved material, all other polygon fields kept. -/
theorem c1_amended (polygons : List PolygonInfo)
    (material_groups : List MaterialGroup) (materials : List Material)
    (out : List PolygonInfo)
    (h : fix_material_index material_groups materials polygons = .ok out)
    (k : Nat) (poly' : PolygonInfo) (hout : out.get? k = some poly') :
    ∃ poly g, polygons.get? k = some poly ∧
      material_groups.get? poly.mat_num = some g ∧
      isLastIndexWithId materials g.material_id poly'.mat_num ∧
      poly' = { poly with mat_num := poly'.mat_num } := by
  induction polygons generalizing out k with
  | nil =>
    simp only [fix_material_index, Except.ok.injEq] at h
    subst h
    simp at hout
  | cons p rest ih =>
    simp only [fix_material_index] at h
    rcases hg : get_material_index_for_material_group_index material_groups
        materials p.mat_num with _ | idx
    · rw [hg] at h
      simp at h
    · rw [hg] at h
      rcases idx with _ | new_index
      · simp at h
      · simp only [bind, Except.bind] at h
        rcases hrest : fix_material_index material_groups materials rest with
          e | rest'
        · rw [hrest] at h
          simp at h
        · rw [hrest] at h
          simp only [Except.ok.injEq] at h
          subst h
          rcases k with _ | k'
          · simp only [List.get?] at hout
            injection hout with hout
            subst hout
            unfold get_material_index_for_material_group_index at hg
            rcases hgg : material_groups.get? p.mat_num with _ | g
            · rw [hgg] at hg
              simp at hg
            · rw [hgg] at hg
              simp only [Option.some.injEq] at hg
              refine ⟨p, g, rfl, hgg, ?_, rfl⟩
              exact material_index_fold_spec materials g.material_id
                new_index hg
          · simp only [List.get?] at hout
            exact ih rest' hrest k' hout

/-- Witness for the amended C1 at the duplicate-identity example. -/
theorem c1_amended_witness :
    ∃ poly g,
      ([⟨0, 0, 0, 0, 0, 0, 0, 0⟩] : List PolygonInfo).get? 0 = some poly ∧
      ([⟨7⟩] : List MaterialGroup).get? poly.mat_num = some g ∧
      isLastIndexWithId [⟨[], 7⟩, ⟨[], 7⟩] g.material_id
        (⟨0, 0, 0, 0, 0, 0, 1, 0⟩ : PolygonInfo).mat_num ∧
      (⟨0, 0, 0, 0, 0, 0, 1, 0⟩ : PolygonInfo) =
        { poly with mat_num := 1 } :=
  c1_amended [⟨0, 0, 0, 0, 0, 0, 0, 0⟩] [⟨7⟩] [⟨[], 7⟩, ⟨[], 7⟩]
    [⟨0, 0, 0, 0, 0, 0, 1, 0⟩] rfl 0 _ rfl


/-- C6 counterexample: a BC1 block whose two packed endpoints are both
0xFFFF but whose index bits select entry 3 decodes pixel 0 to black,
not to the expanded endpoint (255,255,255) — so equal-endpoint blocks
are not uniform for every choice of index bits. -/
theorem c6_counterexample :
    dxtColor0 [0xFF, 0xFF, 0xFF, 0xFF, 0xFF, 0, 0, 0] =
      dxtColor1 [0xFF, 0xFF, 0xFF, 0xFF, 0xFF, 0, 0, 0] ∧
    decode_bc1_block [0xFF, 0xFF, 0xFF, 0xFF, 0xFF, 0, 0, 0] 0 = (0, 0, 0) ∧
    enc565_decode (dxtColor0 [0xFF, 0xFF, 0xFF, 0xFF, 0xFF, 0, 0, 0]) =
      (255, 255, 255) ∧
    ((0, 0, 0) : Rgb) ≠ ((255, 255, 255) : Rgb) := by
  decide

/-- C6 (amended): for each BCn variant, in a block whose endpoints are
equal every pixel channel derived from those endpoints equals the
expanded endpoint, for every per-pixel index selecting a non-sentinel
entry: any 2-bit color index for BC2/BC3, color indices below 3 for
BC1, and 3-bit alpha indices below 6 for BC3/BC4/BC5 (BC2's 4-bit
alpha channel is endpoint-independent). -/
theorem c6_amended :
    (∀ (s : List Nat) (i : Nat), i < 16 → dxtColor0 s = dxtColor1 s →
       dxtColorTable s >>> (i * 2) &&& 3 < 3 →
       decode_bc1_block s i = enc565_decode (dxtColor0 s)) ∧
    (∀ (s : List Nat) (i : Nat), i < 16 →
       dxtColor0 (s.drop 8) = dxtColor1 (s.drop 8) →
       (decode_dxt3_block s i).1 = enc565_decode (dxtColor0 (s.drop 8))) ∧
    (∀ (s : List Nat) (i : Nat), i < 16 →
       dxtColor0 (s.drop 8) = dxtColor1 (s.drop 8) →
       (s.take 8).getD 0 0 = (s.take 8).getD 1 0 →
       dxt5AlphaBits (s.take 8) >>> (i * 3) &&& 7 < 6 →
       decode_dxt5_block s i =
         (enc565_decode (dxtColor0 (s.drop 8)), (s.take 8).getD 0 0)) ∧
    (∀ (s : List Nat) (i : Nat), i < 16 → s.getD 0 0 = s.getD 1 0 →
       dxt5AlphaBits s >>> (i * 3) &&& 7 < 6 →
       decode_bc4_block s i = s.getD 0 0) ∧
    (∀ (s : List Nat) (i : Nat), i < 16 →
       (s.take 8).getD 0 0 = (s.take 8).getD 1 0 →
       (s.drop 8).getD 0 0 = (s.drop 8).getD 1 0 →
       dxt5AlphaBits (s.take 8) >>> (i * 3) &&& 7 < 6 →
       dxt5AlphaBits (s.drop 8) >>> (i * 3) &&& 7 < 6 →
       decode_bc5_block s i =
         ((s.take 8).getD 0 0, (s.drop 8).getD 0 0)) := by
  refine ⟨?_, ?_, ?_, ?_, ?_⟩
  · intro s i _ h hidx
    exact decode_dxt_colors_pixel_bc1 s i h hidx
  · intro s i _ h
    exact decode_dxt_colors_pixel_not_bc1 (s.drop 8) i h
  · intro s i _ hc ha hidx
    unfold decode_dxt5_block
    rw [decode_dxt_colors_pixel_not_bc1 (s.drop 8) i hc,
      dxt5AlphaPixel_eq_endpoint (s.take 8) i ha hidx]
  · intro s i _ ha hidx
    exact dxt5AlphaPixel_eq_endpoint s i ha hidx
  · intro s i _ h1 h2 hi1 hi2
    unfold decode_bc5_block
    rw [dxt5AlphaPixel_eq_endpoint (s.take 8) i h1 hi1,
      dxt5AlphaPixel_eq_endpoint (s.drop 8) i h2 hi2]

/-- Witness for the amended C6 at all-zero blocks for each variant. -/
theorem c6_amended_witness :
    decode_bc1_block [0, 0, 0, 0, 0, 0, 0, 0] 0 =
      enc565_decode (dxtColor0 [0, 0, 0, 0, 0, 0, 0, 0]) ∧
    (decode_dxt3_block (List.replicate 16 0) 0).1 =
      enc565_decode (dxtColor0 ((List.replicate 16 0).drop 8)) ∧
    decode_dxt5_block (List.replicate 16 0) 0 =
      (enc565_decode (dxtColor0 ((List.replicate 16 0).drop 8)),
       ((List.replicate 16 0).take 8).getD 0 0) ∧
    decode_bc4_block [0, 0, 0, 0, 0, 0, 0, 0] 0 = 0 ∧
    decode_bc5_block (List.replicate 16 0) 0 = (0, 0) :=
  ⟨c6_amended.1 _ 0 (by decide) (by decide) (by decide),
   c6_amended.2.1 _ 0 (by decide) (by decide),
   c6_amended.2.2.1 _ 0 (by decide) (by decide) (by decide) (by decide),
   c6_amended.2.2.2.1 _ 0 (by decide) (by decide) (by decide),
   c6_amended.2.2.2.2 _ 0 (by decide) (by decide) (by decide) (by decide)
     (by decide)⟩


set_option maxRecDepth 8192

/-- C2 counterexample: at the 32-bit word 1 the four stored `f32`
weights of the format-42 decode sum to exactly `1 + 2 ^ (-33)`, not 1:
the rounding of `1 / 1023` and of the remainder subtractions leaves a
one-ulp residue in the remainder weight. -/
theorem c2_counterexample :
    (1 : Nat) < 2 ^ 32 ∧
      (decodeWeights42 1).x + (decodeWeights42 1).y + (decodeWeights42 1).z +
        (decodeWeights42 1).w = 1 + 1 / 2 ^ 33 ∧
      (1 : ℚ) + 1 / 2 ^ 33 ≠ 1 := by
  refine ⟨by norm_num, ?_, by norm_num⟩
  have h1 : w42_weight_1 1 = ⟨16775166, -24⟩ := by decide
  have h2 : w42_weight_2 1 = ⟨8396808, -36⟩ := by decide
  have h3 : w42_weight_3 1 = ⟨0, -82⟩ := by decide
  have h4 : w42_weight_4 1 = ⟨0, -83⟩ := by decide
  have v1 : (F32.mk 16775166 (-24)).toRat = 16775166 / 2 ^ 24 := by
    rw [toRat_zpow]
    norm_num
  have v2 : (F32.mk 8396808 (-36)).toRat = 8396808 / 2 ^ 36 := by
    rw [toRat_zpow]
    norm_num
  have v3 : (F32.mk 0 (-82)).toRat = 0 := by
    rw [toRat_zpow]
    norm_num
  have v4 : (F32.mk 0 (-83)).toRat = 0 := by
    rw [toRat_zpow]
    norm_num
  simp only [decodeWeights42, h1, h2, h3, h4, v1, v2, v3, v4]
  norm_num

set_option maxRecDepth 512
set_option maxHeartbeats 1600000

/-- C2 (amended): for every 32-bit input word decoded by the packed
bone-weight format (weights format 42) — weight 2 from the low 10 bits
divided by 1023 then by 8 plus the top 2 bits divided by 8, weight 3
from bits 10–19 divided by 1023 then by 3, weight 4 from bits 20–29
divided by 1023 then by 4, and weight 1 the remainder 1 minus the other
three, every operation rounded to binary32 — the four stored weights sum
to 1 only up to `f32` rounding error: the sum always lies within
`2 ^ (-20)` of 1, but need not equal 1 exactly. -/
theorem c2_amended (w : Nat) (h : w < 2 ^ 32) :
    |(decodeWeights42 w).x + (decodeWeights42 w).y + (decodeWeights42 w).z +
        (decodeWeights42 w).w - 1| ≤ 1 / 2 ^ 20 := by
  simp only [decodeWeights42, w42_weight_1]
  have ha : w &&& 0x3FF ≤ 1023 := Nat.and_le_right
  have hbn : w >>> 10 &&& 0x3FF ≤ 1023 := Nat.and_le_right
  have hcn : w >>> 20 &&& 0x3FF ≤ 1023 := Nat.and_le_right
  have ht : w >>> 30 ≤ 3 := by
    rw [Nat.shiftRight_eq_div_pow]
    have h32 : (2 : Nat) ^ 32 = 4294967296 := by norm_num
    have h30 : (2 : Nat) ^ 30 = 1073741824 := by norm_num
    rw [h30]
    rw [h32] at h
    omega
  simp only [w42_weight_2, w42_weight_3, w42_weight_4]
  set a : Nat := w &&& 0x3FF with hadef
  set b : Nat := w >>> 10 &&& 0x3FF with hbdef
  set c : Nat := w >>> 20 &&& 0x3FF with hcdef
  set t : Nat := w >>> 30 with htdef
  have haQ : ((a : Nat) : ℚ) ≤ 1023 := by exact_mod_cast ha
  have haQ0 : (0 : ℚ) ≤ ((a : Nat) : ℚ) := by positivity
  have hbQ : ((b : Nat) : ℚ) ≤ 1023 := by exact_mod_cast hbn
  have hbQ0 : (0 : ℚ) ≤ ((b : Nat) : ℚ) := by positivity
  have hcQ : ((c : Nat) : ℚ) ≤ 1023 := by exact_mod_cast hcn
  have hcQ0 : (0 : ℚ) ≤ ((c : Nat) : ℚ) := by positivity
  have htQ : ((t : Nat) : ℚ) ≤ 3 := by exact_mod_cast ht
  have htQ0 : (0 : ℚ) ≤ ((t : Nat) : ℚ) := by positivity
  set A : F32 := f32OfNat a with hAdef
  set U1 : F32 := A.divNat 1023 with hU1def
  set U2 : F32 := U1.divNat 8 with hU2def
  set T : F32 := f32OfNat t with hTdef
  set V : F32 := T.divNat 8 with hVdef
  set W2 : F32 := U2.add V with hW2def
  set B : F32 := f32OfNat b with hBdef
  set B1 : F32 := B.divNat 1023 with hB1def
  set W3 : F32 := B1.divNat 3 with hW3def
  set C : F32 := f32OfNat c with hCdef
  set C1 : F32 := C.divNat 1023 with hC1def
  set W4 : F32 := C1.divNat 4 with hW4def
  set ONE : F32 := f32OfNat 1 with hONEdef
  set T1 : F32 := ONE.sub W2 with hT1def
  set T2 : F32 := T1.sub W3 with hT2def
  set W1 : F32 := T2.sub W4 with hW1def
  have hA : A.toRat = ((a : Nat) : ℚ) := f32OfNat_val ha
  have hB : B.toRat = ((b : Nat) : ℚ) := f32OfNat_val hbn
  have hC : C.toRat = ((c : Nat) : ℚ) := f32OfNat_val hcn
  have hT : T.toRat = ((t : Nat) : ℚ) := f32OfNat_val (by omega)
  have hone : ONE.toRat = 1 := by
    have h1023 : (1 : Nat) ≤ 1023 := by norm_num
    have := f32OfNat_val h1023
    simpa using this
  have e1 : |U1.toRat - A.toRat / 1023| ≤ 1 / 2 ^ 22 := by
    apply divNat_err A (by norm_num)
    rw [hA, abs_of_nonneg (by positivity)]
    linarith
  rw [hA] at e1
  obtain ⟨e1l, e1r⟩ := abs_le.mp e1
  have e2 : |U2.toRat - U1.toRat / 8| ≤ 1 / 2 ^ 22 := by
    apply divNat_err U1 (by norm_num)
    rw [abs_le]
    constructor <;> linarith
  obtain ⟨e2l, e2r⟩ := abs_le.mp e2
  have e3 : |V.toRat - T.toRat / 8| ≤ 1 / 2 ^ 22 := by
    apply divNat_err T (by norm_num)
    rw [hT, abs_of_nonneg (by positivity)]
    linarith
  rw [hT] at e3
  obtain ⟨e3l, e3r⟩ := abs_le.mp e3
  have e4 : |W2.toRat - (U2.toRat + V.toRat)| ≤ 1 / 2 ^ 22 := by
    apply add_err
    rw [abs_le]
    constructor <;> linarith
  obtain ⟨e4l, e4r⟩ := abs_le.mp e4
  have f1 : |B1.toRat - B.toRat / 1023| ≤ 1 / 2 ^ 22 := by
    apply divNat_err B (by norm_num)
    rw [hB, abs_of_nonneg (by positivity)]
    linarith
  rw [hB] at f1
  obtain ⟨f1l, f1r⟩ := abs_le.mp f1
  have f2 : |W3.toRat - B1.toRat / 3| ≤ 1 / 2 ^ 22 := by
    apply divNat_err B1 (by norm_num)
    rw [abs_le]
    constructor <;> linarith
  obtain ⟨f2l, f2r⟩ := abs_le.mp f2
  have g1 : |C1.toRat - C.toRat / 1023| ≤ 1 / 2 ^ 22 := by
    apply divNat_err C (by norm_num)
    rw [hC, abs_of_nonneg (by positivity)]
    linarith
  rw [hC] at g1
  obtain ⟨g1l, g1r⟩ := abs_le.mp g1
  have g2 : |W4.toRat - C1.toRat / 4| ≤ 1 / 2 ^ 22 := by
    apply divNat_err C1 (by norm_num)
    rw [abs_le]
    constructor <;> linarith
  obtain ⟨g2l, g2r⟩ := abs_le.mp g2
  have s1 : |T1.toRat - (ONE.toRat - W2.toRat)| ≤ 1 / 2 ^ 22 := by
    apply sub_err
    rw [hone, abs_le]
    constructor <;> linarith
  rw [hone] at s1
  obtain ⟨s1l, s1r⟩ := abs_le.mp s1
  have s2 : |T2.toRat - (T1.toRat - W3.toRat)| ≤ 1 / 2 ^ 22 := by
    apply sub_err
    rw [abs_le]
    constructor <;> linarith
  obtain ⟨s2l, s2r⟩ := abs_le.mp s2
  have s3 : |W1.toRat - (T2.toRat - W4.toRat)| ≤ 1 / 2 ^ 22 := by
    apply sub_err
    rw [abs_le]
    constructor <;> linarith
  obtain ⟨s3l, s3r⟩ := abs_le.mp s3
  rw [abs_le]
  constructor <;> linarith

set_option maxHeartbeats 200000

/-- Witness for the amended C2 at the word 1. -/
theorem c2_amended_witness :
    (1 : Nat) < 2 ^ 32 ∧
      |(decodeWeights42 1).x + (decodeWeights42 1).y + (decodeWeights42 1).z +
          (decodeWeights42 1).w - 1| ≤ 1 / 2 ^ 20 :=
  ⟨by norm_num, c2_amended 1 (by norm_num)⟩

set_option maxHeartbeats 4000000

/-- C5: for the two-joint skeleton of a root (identity rotation, zero
translation, no parent) and a child with parent index 0, translation
(0,1,0) and identity rotation, `calculate_inverse_bind_matrices`
returns exactly the identity matrix for the root and the translation
by (0,-1,0) for the child. -/
theorem c5_two_joint_skeleton :
    calculate_inverse_bind_matrices
      [⟨none, ⟨0, 0, 0⟩, ⟨0, 0, 0, 1⟩, "root", 1⟩,
       ⟨some 0, ⟨0, 1, 0⟩, ⟨0, 0, 0, 1⟩, "child", 2⟩] =
      some [M4.identity, fromTranslation ⟨0, -1, 0⟩] := by
  have hroot : inverse_bind_matrix_for_joint
      [⟨none, ⟨0, 0, 0⟩, ⟨0, 0, 0, 1⟩, "root", 1⟩,
       ⟨some 0, ⟨0, 1, 0⟩, ⟨0, 0, 0, 1⟩, "child", 2⟩] 3 0 = some M4.identity := by
    simp only [inverse_bind_matrix_for_joint, List.get?, Option.some_bind]
    norm_num [trsMatrix, quatToMatrix3, rotationToM4, fromTranslation, mulM4,
      M4.mulVec, invertM4, det3, snapW, M4.identity]
  have hchild : inverse_bind_matrix_for_joint
      [⟨none, ⟨0, 0, 0⟩, ⟨0, 0, 0, 1⟩, "root", 1⟩,
       ⟨some 0, ⟨0, 1, 0⟩, ⟨0, 0, 0, 1⟩, "child", 2⟩] 3 1 =
      some (fromTranslation ⟨0, -1, 0⟩) := by
    simp only [inverse_bind_matrix_for_joint, List.get?, Option.some_bind]
    norm_num [trsMatrix, quatToMatrix3, rotationToM4, fromTranslation, mulM4,
      M4.mulVec, invertM4, det3, snapW, M4.identity]
  unfold calculate_inverse_bind_matrices
  show List.mapM _ (List.range 2) = _
  rw [show List.range 2 = [0, 1] from by decide]
  exact mapM_pair _ _ _ hroot hchild

set_option maxHeartbeats 200000



/-- C10: `Mesh::parse` translates each decoded per-vertex 8-bit bone
slot by direct unchecked indexing into the file-level bone-ID table:
when every slot is below the table length the translation is total and
each output quadruple is the table entry at the slot; when any vertex
carries a slot at or beyond the table length, the translation is a
panic (`none`), not a decode error. -/
theorem c10_translate_bones :
    (∀ (bone_ids : List Nat) (bones_infos : List BoneInfo),
       (∀ bi ∈ bones_infos, bi.bone_1 < bone_ids.length ∧
          bi.bone_2 < bone_ids.length ∧ bi.bone_3 < bone_ids.length ∧
          bi.bone_4 < bone_ids.length) →
       translateBones bone_ids bones_infos =
         some (bones_infos.map fun bi =>
           (bone_ids.getD bi.bone_1 0, bone_ids.getD bi.bone_2 0,
            bone_ids.getD bi.bone_3 0, bone_ids.getD bi.bone_4 0))) ∧
    (∀ (bone_ids : List Nat) (bones_infos : List BoneInfo)
       (bi : BoneInfo), bi ∈ bones_infos →
       (bone_ids.length ≤ bi.bone_1 ∨ bone_ids.length ≤ bi.bone_2 ∨
        bone_ids.length ≤ bi.bone_3 ∨ bone_ids.length ≤ bi.bone_4) →
       translateBones bone_ids bones_infos = none) := by
  constructor
  · intro bone_ids bones_infos hall
    induction bones_infos with
    | nil => rfl
    | cons bi rest ih =>
      obtain ⟨h1, h2, h3, h4⟩ := hall bi (List.mem_cons_self bi rest)
      have hrest := ih fun b hb => hall b (List.mem_cons_of_mem bi hb)
      simp only [translateBones, hrest, List.map_cons,
        List.get?_eq_get h1, List.get?_eq_get h2, List.get?_eq_get h3,
        List.get?_eq_get h4, Option.some_bind, List.get_eq_getElem,
        List.getD_eq_getElem bone_ids 0 h1,
        List.getD_eq_getElem bone_ids 0 h2,
        List.getD_eq_getElem bone_ids 0 h3,
        List.getD_eq_getElem bone_ids 0 h4]
      rfl
  · intro bone_ids bones_infos bi hmem hoob
    induction bones_infos with
    | nil => simp at hmem
    | cons b rest ih =>
      rcases List.mem_cons.mp hmem with rfl | hmem'
      · simp only [translateBones]
        rcases hoob with h | h | h | h
        · rw [List.get?_eq_none.mpr h]
          rfl
        · rw [List.get?_eq_none.mpr h]
          cases bone_ids.get? bi.bone_1 <;> rfl
        · rw [List.get?_eq_none.mpr h]
          cases bone_ids.get? bi.bone_1 <;> cases bone_ids.get? bi.bone_2 <;>
            rfl
        · rw [List.get?_eq_none.mpr h]
          cases bone_ids.get? bi.bone_1 <;> cases bone_ids.get? bi.bone_2 <;>
            cases bone_ids.get? bi.bone_3 <;> rfl
      · exact translateBones_cons_none bone_ids b rest (ih hmem')

/-- Witness for C10: an in-bounds translation and an out-of-bounds
panic at concrete inputs. -/
theorem c10_translate_bones_witness :
    translateBones [41, 42] [⟨0, 1, 1, 0⟩] =
      some [([41, 42].getD 0 0, [41, 42].getD 1 0, [41, 42].getD 1 0,
             [41, 42].getD 0 0)] ∧
    translateBones [41, 42] [⟨0, 1, 5, 0⟩] = none :=
  ⟨c10_translate_bones.1 [41, 42] [⟨0, 1, 1, 0⟩] (by decide),
   c10_translate_bones.2 [41, 42] [⟨0, 1, 5, 0⟩] ⟨0, 1, 5, 0⟩
     (List.mem_cons_self _ _) (by decide)⟩

/-- C4: for every name header whose declared name length exceeds the
declared header length, `D3DName::parse` does not fail with a length
error: it seeks back 4 bytes, reads exactly `header_length` bytes
(starting at the name-length field), and the cursor ends exactly at
the end of the originally declared header region — it can only fail
as a UTF-8 validation error. -/
theorem c4_name_header_quirk (d : List Nat)
    (p header_length name_length q1 q2 : Nat)
    (h1 : readU32 d p = .ok (header_length, q1))
    (h2 : readU32 d q1 = .ok (name_length, q2))
    (hgt : name_length > header_length)
    (hbytes : q1 + header_length ≤ d.length) :
    D3DName.parse d p =
      (if validUtf8 ((d.drop q1).take header_length) then
        .ok ((d.drop q1).take header_length, q1 + header_length)
      else .error .utf8) := by
  have hq2 : q2 = q1 + 4 := readU32_ok_pos h2
  unfold D3DName.parse
  rw [run_bind _ _ h1, run_bind _ _ h2, if_pos hgt,
    run_bind _ _ (by rw [hq2]; exact seekCur_back4 d q1)]
  unfold read_fixed_string
  rw [readBytes_of_le hbytes]
  rfl

/-- Witness for C4: header length 5, name length 9, the five name bytes
are read from the name-length field onward and the cursor ends at the
region end. -/
theorem c4_name_header_quirk_witness :
    D3DName.parse [5, 0, 0, 0, 9, 0, 0, 0, 65, 66, 67, 68, 69] 0 =
      .ok ([9, 0, 0, 0, 65], 9) := by
  have e0 : lcombine ((([5, 0, 0, 0, 9, 0, 0, 0, 65, 66, 67, 68,
      69] : List Nat).drop 0).take 4) = 5 := by decide
  have e1 : lcombine ((([5, 0, 0, 0, 9, 0, 0, 0, 65, 66, 67, 68,
      69] : List Nat).drop 4).take 4) = 9 := by decide
  have h := c4_name_header_quirk [5, 0, 0, 0, 9, 0, 0, 0, 65, 66, 67, 68, 69]
    0 5 9 4 8 (readU32_eval (by norm_num) e0) (readU32_eval (by norm_num) e1)
    (by norm_num) (by norm_num)
  rw [h]
  rfl

/-- C9: whenever the global vertex flag equals the sentinel 0x31,
the pre-pass records the cursor, seeks to the secondary vertex start,
reads `vert_count` position-with-bones records there, and restores the
cursor exactly; for every other enumerated flag value no pre-pass reads
occur and the cursor is unchanged. -/
theorem c9_prepass :
    (∀ (vert_start vert_count : Nat) (d : List Nat) (p : Nat)
       (recs : List (Vec3 × BoneInfo)) (q : Nat),
       readN vert_count parse_position_with_bones d vert_start =
         .ok (recs, q) →
       meshPrePass vert_start 0x31 vert_count d p = .ok (recs, p) ∧
         recs.length = vert_count) ∧
    (∀ (vert_start vert_flags vert_count : Nat) (d : List Nat) (p : Nat),
       vert_flags ∈ [0x00, 0x01, 0x03, 0x05, 0x09, 0x21] →
       meshPrePass vert_start vert_flags vert_count d p = .ok ([], p)) := by
  constructor
  · intro vs n d p recs q hread
    refine ⟨?_, readN_length hread⟩
    show (do
      let vert_start_b ← streamPos
      seekStart vs
      let recs ← readN n parse_position_with_bones
      seekStart vert_start_b
      pure recs : ParseM (List (Vec3 × BoneInfo))) d p = .ok (recs, p)
    rw [run_bind _ _ (streamPos_apply d p),
      run_bind _ _ (seekStart_apply vs d p), run_bind _ _ hread,
      run_bind _ _ (seekStart_apply p d q)]
    rfl
  · intro vs f n d p hf
    fin_cases hf <;> rfl

/-- Witness for C9: a 16-byte all-zero record stream for the sentinel
pre-pass, and the flag 0x01 for the plain case. -/
theorem c9_prepass_witness :
    meshPrePass 0 0x31 1 (List.replicate 16 0) 5 =
      .ok ([(⟨0, 0, 0⟩, ⟨0, 0, 0, 0⟩)], 5) ∧
    meshPrePass 0 0x01 1 (List.replicate 16 0) 5 = .ok ([], 5) := by
  have e0 : lcombine (((List.replicate 16 0).drop 0).take 4) = 0 := by decide
  have e4 : lcombine (((List.replicate 16 0).drop 4).take 4) = 0 := by decide
  have e8 : lcombine (((List.replicate 16 0).drop 8).take 4) = 0 := by decide
  have f0 : readF32 (List.replicate 16 0) 0 = .ok (f32FromBits 0, 0 + 4) :=
    readF32_eval (by decide) e0
  have f4 : readF32 (List.replicate 16 0) 4 = .ok (f32FromBits 0, 4 + 4) :=
    readF32_eval (by decide) e4
  have f8 : readF32 (List.replicate 16 0) 8 = .ok (f32FromBits 0, 8 + 4) :=
    readF32_eval (by decide) e8
  have hvec : parse_vec3_f32 (List.replicate 16 0) 0 =
      .ok (⟨0, 0, 0⟩, 12) := by
    unfold parse_vec3_f32
    simp only [run_bind' f0, run_bind' f4, run_bind' f8, pure_apply,
      f32FromBits_zero]
  have g12 : (List.replicate 16 (0 : Nat)).get? 12 = some 0 := by decide
  have g13 : (List.replicate 16 (0 : Nat)).get? 13 = some 0 := by decide
  have g14 : (List.replicate 16 (0 : Nat)).get? 14 = some 0 := by decide
  have g15 : (List.replicate 16 (0 : Nat)).get? 15 = some 0 := by decide
  have hbi : BoneInfo.parse (List.replicate 16 0) 12 =
      .ok (⟨0, 0, 0, 0⟩, 16) := by
    unfold BoneInfo.parse
    simp only [run_bind' (readU8_eval g12), run_bind' (readU8_eval g13),
      run_bind' (readU8_eval g14), run_bind' (readU8_eval g15), pure_apply]
  have hpb : parse_position_with_bones (List.replicate 16 0) 0 =
      .ok ((⟨0, 0, 0⟩, ⟨0, 0, 0, 0⟩), 24) := by
    unfold parse_position_with_bones
    simp only [run_bind' hvec, run_bind' hbi,
      run_bind' (@seekCur_eval 8 24 (List.replicate 16 0)
        16 (by norm_num)), pure_apply]
  have hread : readN 1 parse_position_with_bones (List.replicate 16 0) 0 =
      .ok ([(⟨0, 0, 0⟩, ⟨0, 0, 0, 0⟩)], 24) := by
    show (do
      let a ← parse_position_with_bones
      let rest ← readN 0 parse_position_with_bones
      pure (a :: rest) : ParseM (List (Vec3 × BoneInfo)))
        (List.replicate 16 0) 0 = _
    simp only [run_bind' hpb, readN, bind_pure_run, pure_apply]
  exact ⟨(c9_prepass.1 0 1 (List.replicate 16 0) 5
      [(⟨0, 0, 0⟩, ⟨0, 0, 0, 0⟩)] 24 hread).1,
    c9_prepass.2 0 0x01 1 (List.replicate 16 0) 5 (by decide)⟩

/-- C7: for a skeleton file in which some joint's raw 32-bit parent
index is at most 1,000,000 but at least the joint count, `Joint::parse`
records the parent as present (`some`) with no bounds check, and the
inverse-bind-matrix computation then performs an out-of-bounds joint
access — a panic (`none`), not a returned decode error. -/
theorem c7_unchecked_parent :
    (∀ (cm : ChecksumMap) (d : List Nat) (p : Nat) (joint : Joint)
       (q v : Nat), Joint.parse cm d p = .ok (joint, q) →
       readU32 d (p + 16) = .ok (v, p + 20) → v ≤ 1000000 →
       joint.parent = some v) ∧
    (∀ (joints : List Joint) (i : Nat) (j : Joint) (v : Nat),
       joints.get? i = some j → j.parent = some v → joints.length ≤ v →
       calculate_inverse_bind_matrices joints = none) := by
  constructor
  · intro cm d p joint q v hparse hv hle
    simp only [Joint.parse, ParseM.bind_def, ParseM.pure_def,
      ParseM.bindP_ok, ParseM.pureP_apply, Except.ok.injEq,
      Prod.mk.injEq] at hparse
    obtain ⟨cs, r1, hcs, pcs, r2, hpcs, bp, r3, hbp, u1, r4, hseek1,
      tr, r5, htr, rot, r6, hrot, u2, r7, hseek2, am1, r8, ham1, u3, r9,
      hskip1, u4, r10, hseek3, am2, r11, ham2, u5, r12, hskip2, u6, r13,
      hseek4, hjoint, hq⟩ := hparse
    have hr1 : r1 = p + 8 := readU64_ok_pos hcs
    have hr2 : r2 = p + 16 := by
      have := readU64_ok_pos hpcs
      omega
    rw [hr2, hv] at hbp
    have hbpv : bp = v := by
      injection hbp with h1
      injection h1 with h2 h3
      omega
    rw [← hjoint]
    show (if bp > 1000000 then none else some bp : Option Nat) = some v
    rw [hbpv, if_neg (by omega)]
  · intro joints i j v hget hparent hlen
    have hi : i < joints.length := (List.get?_eq_some.mp hget).1
    unfold calculate_inverse_bind_matrices
    refine option_mapM_none (List.mem_range.mpr hi) ?_
    simp only [inverse_bind_matrix_for_joint, hget, Option.some_bind,
      hparent]
    cases hinv : invertM4 (trsMatrix j) with
    | none => simp [hinv]
    | some m =>
      have hnone : joints.get? v = none := List.get?_eq_none.mpr (by omega)
      have hsub : inverse_bind_matrix_for_joint joints joints.length v =
          none := by
        obtain ⟨k, hk⟩ : ∃ k, joints.length = k + 1 :=
          ⟨joints.length - 1, by omega⟩
        rw [hk]
        simp only [inverse_bind_matrix_for_joint, hnone, Option.none_bind]
        rfl
      simp [hinv, hparent, hsub]

set_option maxRecDepth 16384

/-- Witness for C7: the concrete one-joint stream with parent index 5
parses to a joint with `parent = some 5`, and the bind-matrix
computation on the resulting one-joint skeleton panics. -/
theorem c7_unchecked_parent_witness :
    (⟨some 5, ⟨0, 0, 0⟩, ⟨0, 0, 0, 0⟩, hexPad16 0, 0⟩ : Joint).parent =
      some 5 ∧
    calculate_inverse_bind_matrices
      [⟨some 5, ⟨0, 0, 0⟩, ⟨0, 0, 0, 0⟩, hexPad16 0, 0⟩] = none := by
  have h64a : readU64 jointStream 0 = .ok (0, 0 + 8) :=
    readU64_eval (by decide) (by decide)
  have h64b : readU64 jointStream 8 = .ok (0, 8 + 8) :=
    readU64_eval (by decide) (by decide)
  have h32 : readU32 jointStream 16 = .ok (5, 16 + 4) :=
    readU32_eval (by decide) (by decide)
  have hf32 : readF32 jointStream 32 = .ok (f32FromBits 0, 32 + 4) :=
    readF32_eval (by decide) (by decide)
  have hf36 : readF32 jointStream 36 = .ok (f32FromBits 0, 36 + 4) :=
    readF32_eval (by decide) (by decide)
  have hf40 : readF32 jointStream 40 = .ok (f32FromBits 0, 40 + 4) :=
    readF32_eval (by decide) (by decide)
  have hf44 : readF32 jointStream 44 = .ok (f32FromBits 0, 44 + 4) :=
    readF32_eval (by decide) (by decide)
  have hf48 : readF32 jointStream 48 = .ok (f32FromBits 0, 48 + 4) :=
    readF32_eval (by decide) (by decide)
  have hf52 : readF32 jointStream 52 = .ok (f32FromBits 0, 52 + 4) :=
    readF32_eval (by decide) (by decide)
  have hf56 : readF32 jointStream 56 = .ok (f32FromBits 0, 56 + 4) :=
    readF32_eval (by decide) (by decide)
  have hvec : parse_vec3_f32 jointStream 32 = .ok (⟨0, 0, 0⟩, 44) := by
    unfold parse_vec3_f32
    simp only [run_bind' hf32, run_bind' hf36, run_bind' hf40, pure_apply,
      f32FromBits_zero]
  have hvec4 : parse_vec4_f32 jointStream 44 = .ok (⟨0, 0, 0, 0⟩, 60) := by
    unfold parse_vec4_f32
    simp only [run_bind' hf44, run_bind' hf48, run_bind' hf52,
      run_bind' hf56, pure_apply, f32FromBits_zero]
  have ham1 : readU32 jointStream 132 = .ok (0, 132 + 4) :=
    readU32_eval (by decide) (by decide)
  have ham2 : readU32 jointStream 140 = .ok (0, 140 + 4) :=
    readU32_eval (by decide) (by decide)
  have hparse : Joint.parse (fun _ => none) jointStream 0 =
      .ok (⟨some 5, ⟨0, 0, 0⟩, ⟨0, 0, 0, 0⟩, hexPad16 0, 0⟩, 176) := by
    unfold Joint.parse
    simp only [run_bind' h64a, run_bind' h64b, run_bind' h32,
      run_bind' (@seekCur_eval 0x0C 32 jointStream 20
        (by norm_num)),
      run_bind' hvec, run_bind' hvec4,
      run_bind' (@seekCur_eval 0x48 132 jointStream 60
        (by norm_num)),
      run_bind' ham1, skipN, bind_pure_run,
      run_bind' (@seekCur_eval 0x04 140 jointStream 136
        (by norm_num)),
      run_bind' ham2,
      run_bind' (@seekCur_eval 0x20 176 jointStream 144
        (by norm_num)),
      pure_apply, ChecksumMap.get_mapping, Option.getD_none]
    norm_num
  exact ⟨c7_unchecked_parent.1 (fun _ => none) jointStream 0 _ 176 5
      hparse h32 (by norm_num),
    c7_unchecked_parent.2 _ 0 _ 5 rfl rfl (by norm_num)⟩

set_option maxRecDepth 512

/-- C3: a material section list that reaches a section hash outside the
enumerated set makes the scan log exactly one warning and stop — the
loop returns `Ok` with exactly the textures and warnings accumulated
before the unknown hash and the cursor just after the hash/count pair —
and `Material::parse` always leaves the cursor exactly at the
precomputed end offset: the position after the declared header-size
field, plus that declared size, minus 4. -/
theorem c3_unknown_material_hash :
    (∀ (tm : ChecksumMap) (n : Nat) (textures : List Texture)
       (warns : List String) (d : List Nat) (p h c q1 q2 : Nat),
       readU64 d p = .ok (h, q1) → readU32 d q1 = .ok (c, q2) →
       h ∉ knownMaterialHashes →
       matSectionLoop tm (n + 1) textures warns d p =
         .ok ((textures, warns ++ [warnUnknownMaterialHash]), q2)) ∧
    (∀ (tm : ChecksumMap) (d : List Nat) (p : Nat)
       (res : Material × List String) (q : Nat),
       Material.parse tm d p = .ok (res, q) →
       q = p + 20 + u32At d (p + 16) - 4) := by
  constructor
  · intro tm n textures warns d p h c q1 q2 h1 h2 hnot
    simp only [matSectionLoop]
    rw [run_bind _ _ h1, run_bind _ _ h2]
    split <;> first
      | rfl
      | exact absurd (by decide) hnot
  · intro tm d p res q hp
    simp only [Material.parse, ParseM.bind_def, ParseM.pure_def,
      ParseM.bindP_ok, ParseM.pureP_apply, streamPos_apply,
      seekStart_apply, Except.ok.injEq, Prod.mk.injEq] at hp
    obtain ⟨mid, r1, hid, u1, r2, hu1, u2, r3, hu2, hs, r4, hhs, pos, r5,
      hpos, m1, r6, hm1, m2, r7, hm2, hb, r8, hhb, c3, r9, hc3, u10, r10,
      hskip, pc, r11, hpc, tw, r12, hloop, u12, r13, hseek, hres, hq⟩ := hp
    have hr1 : r1 = p + 8 := readU64_ok_pos hid
    have hr2 : r2 = p + 12 := by
      have := readU32_ok_pos hu1
      omega
    have hr3 : r3 = p + 16 := by
      have := readU32_ok_pos hu2
      omega
    obtain ⟨hhsv, hr4⟩ : hs = u32At d (p + 16) ∧ r4 = p + 20 := by
      rw [hr3] at hhs
      exact readU32_ok hhs
    obtain ⟨hposv, -⟩ := hpos
    obtain ⟨-, hr13⟩ := hseek
    omega

/-- Witness for C3: the concrete material stream whose single section
hash 0xDEADBEEF is unknown — the scan stops with one warning, the whole
parse returns `Ok` with no textures, and the final cursor equals the
precomputed end offset 44. -/
theorem c3_unknown_material_hash_witness :
    matSectionLoop (fun _ => none) 1 [] [] materialStream 40 =
      .ok (([], [warnUnknownMaterialHash]), 52) ∧
    Material.parse (fun _ => none) materialStream 0 =
      .ok ((⟨[], 0⟩, [warnUnknownMaterialHash]), 44) ∧
    (44 : Nat) = 0 + 20 + u32At materialStream (0 + 16) - 4 := by
  have hh : readU64 materialStream 40 = .ok (0xDEADBEEF, 40 + 8) :=
    readU64_eval (by decide) (by decide)
  have hc : readU32 materialStream 48 = .ok (0, 48 + 4) :=
    readU32_eval (by decide) (by decide)
  have hloop : matSectionLoop (fun _ => none) (0 + 1) [] []
      materialStream 40 = .ok (([], [] ++ [warnUnknownMaterialHash]), 52) :=
    c3_unknown_material_hash.1 (fun _ => none) 0 [] [] materialStream 40
      0xDEADBEEF 0 48 52 hh hc (by decide)
  have hid : readU64 materialStream 0 = .ok (0, 0 + 8) :=
    readU64_eval (by decide) (by decide)
  have hu1 : readU32 materialStream 8 = .ok (0, 8 + 4) :=
    readU32_eval (by decide) (by decide)
  have hu2 : readU32 materialStream 12 = .ok (0, 12 + 4) :=
    readU32_eval (by decide) (by decide)
  have hhs : readU32 materialStream 16 = .ok (28, 16 + 4) :=
    readU32_eval (by decide) (by decide)
  have hm1 : readU32 materialStream 20 = .ok (0, 20 + 4) :=
    readU32_eval (by decide) (by decide)
  have hm2 : readU32 materialStream 24 = .ok (0, 24 + 4) :=
    readU32_eval (by decide) (by decide)
  have hhb : readU32 materialStream 28 = .ok (0, 28 + 4) :=
    readU32_eval (by decide) (by decide)
  have hc3 : readU32 materialStream 32 = .ok (0, 32 + 4) :=
    readU32_eval (by decide) (by decide)
  have hpc : readU32 materialStream 36 = .ok (1, 36 + 4) :=
    readU32_eval (by decide) (by decide)
  have hparse : Material.parse (fun _ => none) materialStream 0 =
      .ok ((⟨[], 0⟩, [warnUnknownMaterialHash]), 44) := by
    unfold Material.parse
    simp only [run_bind' hid, run_bind' hu1, run_bind' hu2, run_bind' hhs,
      run_bind' (show streamPos materialStream 20 = .ok (20, 20) from rfl),
      run_bind' hm1, run_bind' hm2, run_bind' hhb, run_bind' hc3, skipN,
      bind_pure_run, run_bind' hpc, run_bind' hloop,
      run_bind' (show seekStart (20 + 28 - 4) materialStream 52 =
        .ok ((), 44) from rfl), pure_apply, List.nil_append]
  exact ⟨hloop, hparse,
    c3_unknown_material_hash.2 (fun _ => none) materialStream 0
      (⟨[], 0⟩, [warnUnknownMaterialHash]) 44 hparse⟩

/-- C8: for every mesh whose layout table declares only the position
channel (type 1, layer 1) in a recognized position format (4, 27 or
42), and whose global vertex flag is one of the plain enumerated
values, a successful `Mesh::parse` returns a mesh with `normals`,
`uv`, `bones` and `weights` all empty and exactly `vert_count`
positions. -/
theorem c8_positions_only (b f : Nat) (hb : 0 < b)
    (hf : f = 4 ∨ f = 27 ∨ f = 42)
    (face_buffer_count fpcA fpcB face_data_start vert_start vert_flags
      vert_count : Nat) (mc : ModelClamps) (uvc : List (Option UVClamps))
    (bids : List Nat)
    (hflags : vert_flags ∈ [0x00, 0x01, 0x03, 0x05, 0x09, 0x21])
    (d : List Nat) (p : Nat) (m : Mesh) (q : Nat)
    (h : Mesh.parseWithLayout { has_vertex := b, vertex_format := f }
      face_buffer_count fpcA fpcB face_data_start vert_start vert_flags
      vert_count mc uvc bids d p = .ok (m, q)) :
    m.normals = [] ∧ m.uv = [] ∧ m.bones = [] ∧ m.weights = [] ∧
      m.positions.length = vert_count := by
  simp only [Mesh.parseWithLayout, ParseM.bind_def, ParseM.pure_def,
    ParseM.bindP_ok, ParseM.pureP_apply, seekStart_apply,
    meshPrePass_plain hflags, meshReadWeights_zero, meshReadBones_zero,
    meshReadNormals_zero, meshReadTangents_zero, meshReadBinormals_zero,
    meshReadColors_zero, readOptUV_zero, Except.ok.injEq,
    Prod.mk.injEq] at h
  obtain ⟨fa0, r0, ⟨-, hr0⟩, fa, r1, hfa, hrest⟩ := h
  split at hrest
  · simp only [ParseM.bindP_ok, ParseM.pureP_apply,
      meshPrePass_plain hflags, meshReadWeights_zero, meshReadBones_zero,
      meshReadNormals_zero, meshReadTangents_zero, meshReadBinormals_zero,
      meshReadColors_zero, readOptUV_zero, Except.ok.injEq,
      Prod.mk.injEq] at hrest
    obtain ⟨fb, r2, hfb, u, r3, ⟨-, hr3⟩, pre, r4, ⟨hpre, hr4⟩, pm, r5,
      hpm, w, r6, ⟨hw, hr6⟩, bm, r7, ⟨hbm, hr7⟩, nm, r8, ⟨hnm, hr8⟩, u1,
      r9, ⟨-, hr9⟩, u2, r10, ⟨-, hr10⟩, uv5, r11, ⟨huv5, hr11⟩, uv6, r12,
      ⟨huv6, hr12⟩, u3, r13, ⟨-, hr13⟩, u4, r14, ⟨-, hr14⟩, uv1, r15,
      ⟨huv1, hr15⟩, uv2, r16, ⟨huv2, hr16⟩, uv3, r17, ⟨huv3, hr17⟩, uv4,
      r18, ⟨huv4, hr18⟩, hmatch⟩ := hrest
    subst hpre hw hbm hnm huv5 huv6 huv1 huv2 huv3 huv4
    simp only [List.map_nil, List.nil_append, translateBones_nil,
      ParseM.pureP_apply, Except.ok.injEq, Prod.mk.injEq] at hmatch
    obtain ⟨hm, -⟩ := hmatch
    subst hm
    refine ⟨rfl, ?_, rfl, rfl, ?_⟩
    · simp [appendUV_none]
    · simpa using meshReadPositions_length hb hf hpm
  · simp only [ParseM.bindP_ok, ParseM.pureP_apply,
      meshPrePass_plain hflags, meshReadWeights_zero, meshReadBones_zero,
      meshReadNormals_zero, meshReadTangents_zero, meshReadBinormals_zero,
      meshReadColors_zero, readOptUV_zero, Except.ok.injEq,
      Prod.mk.injEq] at hrest
    obtain ⟨u, r3, ⟨-, hr3⟩, pre, r4, ⟨hpre, hr4⟩, pm, r5,
      hpm, w, r6, ⟨hw, hr6⟩, bm, r7, ⟨hbm, hr7⟩, nm, r8, ⟨hnm, hr8⟩, u1,
      r9, ⟨-, hr9⟩, u2, r10, ⟨-, hr10⟩, uv5, r11, ⟨huv5, hr11⟩, uv6, r12,
      ⟨huv6, hr12⟩, u3, r13, ⟨-, hr13⟩, u4, r14, ⟨-, hr14⟩, uv1, r15,
      ⟨huv1, hr15⟩, uv2, r16, ⟨huv2, hr16⟩, uv3, r17, ⟨huv3, hr17⟩, uv4,
      r18, ⟨huv4, hr18⟩, hmatch⟩ := hrest
    subst hpre hw hbm hnm huv5 huv6 huv1 huv2 huv3 huv4
    simp only [List.map_nil, List.nil_append, translateBones_nil,
      ParseM.pureP_apply, Except.ok.injEq, Prod.mk.injEq] at hmatch
    obtain ⟨hm, -⟩ := hmatch
    subst hm
    refine ⟨rfl, ?_, rfl, rfl, ?_⟩
    · simp [appendUV_none]
    · simpa using meshReadPositions_length hb hf hpm

/-- Witness for C8: a 12-byte stream holding one float-triple position,
a layout with only the position channel in format 4, and the plain flag
0x01. -/
theorem c8_positions_only_witness :
    (⟨[⟨0, 0, 0⟩], [], [], [], [], []⟩ : Mesh).normals = [] ∧
    (⟨[⟨0, 0, 0⟩], [], [], [], [], []⟩ : Mesh).uv = [] ∧
    (⟨[⟨0, 0, 0⟩], [], [], [], [], []⟩ : Mesh).bones = [] ∧
    (⟨[⟨0, 0, 0⟩], [], [], [], [], []⟩ : Mesh).weights = [] ∧
    (⟨[⟨0, 0, 0⟩], [], [], [], [], []⟩ : Mesh).positions.length = 1 := by
  have hf0 : readF32 (List.replicate 12 0) 0 = .ok (f32FromBits 0, 0 + 4) :=
    readF32_eval (by decide) (by decide)
  have hf4 : readF32 (List.replicate 12 0) 4 = .ok (f32FromBits 0, 4 + 4) :=
    readF32_eval (by decide) (by decide)
  have hf8 : readF32 (List.replicate 12 0) 8 = .ok (f32FromBits 0, 8 + 4) :=
    readF32_eval (by decide) (by decide)
  have hvec : parse_vec3_f32 (List.replicate 12 0) 0 =
      .ok (⟨0, 0, 0⟩, 12) := by
    unfold parse_vec3_f32
    simp only [run_bind' hf0, run_bind' hf4, run_bind' hf8, pure_apply,
      f32FromBits_zero]
  have hpos : meshReadPositions 1 4 1 ⟨⟨1, 1, 1⟩, ⟨0, 0, 0⟩, .Q⟩
      (List.replicate 12 0) 0 = .ok ([⟨0, 0, 0⟩], 12) := by
    show readN 1 parse_vec3_f32 (List.replicate 12 0) 0 = _
    show (do
      let a ← parse_vec3_f32
      let rest ← readN 0 parse_vec3_f32
      pure (a :: rest) : ParseM (List Vec3)) (List.replicate 12 0) 0 = _
    simp only [run_bind' hvec, readN, bind_pure_run, pure_apply]
  have hrun : Mesh.parseWithLayout { has_vertex := 1, vertex_format := 4 }
      0 0 0 0 0 0x01 1 ⟨⟨1, 1, 1⟩, ⟨0, 0, 0⟩, .Q⟩ [] []
      (List.replicate 12 0) 0 =
      .ok (⟨[⟨0, 0, 0⟩], [], [], [], [], []⟩, 12) := by
    unfold Mesh.parseWithLayout
    simp only [run_bind' (seekStart_apply 0 (List.replicate 12 0) 0),
      readN, bind_pure_run, pure_apply]
    rw [if_neg (show ¬((0 : Nat) = 2) from by decide)]
    simp only [bind_pure_run, pure_apply,
      run_bind' (@meshPrePass_plain 0x01 (by decide) 0 1
        (List.replicate 12 0) 0),
      run_bind' hpos, run_bind' (meshReadWeights_zero 0 1
        (List.replicate 12 0) 12),
      run_bind' (meshReadBones_zero 0 1 (List.replicate 12 0) 12),
      run_bind' (meshReadNormals_zero 0 1 (List.replicate 12 0) 12),
      run_bind' (meshReadTangents_zero 0 1 (List.replicate 12 0) 12),
      run_bind' (meshReadBinormals_zero 0 1 (List.replicate 12 0) 12),
      run_bind' (meshReadColors_zero 0 1 (List.replicate 12 0) 12),
      run_bind' (readOptUV_zero 0 1 (([] : List (Option UVClamps)).getD 4
        none) (List.replicate 12 0) 12),
      run_bind' (readOptUV_zero 0 1 (([] : List (Option UVClamps)).getD 5
        none) (List.replicate 12 0) 12),
      run_bind' (readOptUV_zero 0 1 (([] : List (Option UVClamps)).getD 0
        none) (List.replicate 12 0) 12),
      run_bind' (readOptUV_zero 0 1 (([] : List (Option UVClamps)).getD 1
        none) (List.replicate 12 0) 12),
      run_bind' (readOptUV_zero 0 1 (([] : List (Option UVClamps)).getD 2
        none) (List.replicate 12 0) 12),
      run_bind' (readOptUV_zero 0 1 (([] : List (Option UVClamps)).getD 3
        none) (List.replicate 12 0) 12),
      translateBones_nil, List.map_nil, List.nil_append, appendUV_none]
  exact c8_positions_only 1 4 (by decide) (by norm_num) 0 0 0 0 0 0x01 1
    ⟨⟨1, 1, 1⟩, ⟨0, 0, 0⟩, .Q⟩ [] [] (by decide) (List.replicate 12 0) 0
    ⟨[⟨0, 0, 0⟩], [], [], [], [], []⟩ 12 hrun

end D3D
